import Mathlib

/-!
Shallow embedding of the Velero backup/restore core that the claims below
are about: the per-item backup engine (`backupItem`, `takePVSnapshot`,
`executeActions` from pkg/backup) and the restore controller state machine
(`processRestore`, `validateAndComplete`, `mostRecentCompletedBackup` from
pkg/controller/restore_controller.go).

Modelling conventions:
- Go maps used as sets (`BackedUpItems`, the restic pvc snapshot tracker)
  become lists of keys with membership; insertion appends the key.
- Fallible Go calls become `Except String` values; collaborator objects
  (volume snapshotters, hook handlers, custom actions, the restic
  backupper, the API-server patch call) become Lean function fields of an
  environment structure, since only their input/output behaviour is
  observable to the code under verification.
- Calls to collaborators that the claims quantify over (provider calls,
  hook executions, archive writes, patches) are additionally recorded in
  an event trace so that statements such as "CreateSnapshot is never
  invoked" are expressible.
- Go `sort.Slice` guarantees only that the result is a permutation of the
  input ordered by the comparator; it is modelled by `List.insertionSort`
  with the same comparator.
-/

namespace Velero

/-- Key identifying one cluster object within a run: built in backupItem from
resourceKey(obj) (a group-version-kind string), the metadata namespace and
the metadata name. -/
structure ItemKey where
  resource : String
  ns : String
  name : String
deriving DecidableEq, Repr

/-- Phase of a volume.Snapshot record (volume package). -/
inductive SnapshotPhase
  | new
  | completed
  | failed
deriving DecidableEq, Repr

/-- Spec half of a volume.Snapshot record, as populated by volumeSnapshot. -/
structure SnapshotSpec where
  backupName : String
  backupUID : String
  location : String
  persistentVolumeName : String
  providerVolumeID : String
  volumeType : String
  volumeAZ : String
  volumeIOPS : Option Int
deriving DecidableEq, Repr

/-- Status half of a volume.Snapshot record. -/
structure SnapshotStatus where
  phase : SnapshotPhase
  providerSnapshotID : String := ""
deriving DecidableEq, Repr

/-- A volume.Snapshot record appended to the Backup Request snapshot list. -/
structure Snapshot where
  spec : SnapshotSpec
  status : SnapshotStatus
deriving DecidableEq, Repr

/-- Embeds the volumeSnapshot constructor: a record in phase New with the
provider snapshot ID left empty. -/
def volumeSnapshot (backupName backupUID volumeName volumeID volumeType az location : String)
    (iops : Option Int) : Snapshot :=
  { spec :=
      { backupName := backupName
        backupUID := backupUID
        location := location
        persistentVolumeName := volumeName
        providerVolumeID := volumeID
        volumeType := volumeType
        volumeAZ := az
        volumeIOPS := iops }
    status := { phase := SnapshotPhase.new } }

/-- A VolumeSnapshotLocation resource: the fields takePVSnapshot reads. -/
structure VolumeSnapshotLocation where
  name : String
  provider : String
deriving DecidableEq, Repr

/-- The corev1 PersistentVolume fields read by takePVSnapshot: its name, the
optional claim reference (namespace, claim name) and the labels map. -/
structure PersistentVolume where
  name : String
  claimRef : Option (String × String)
  labels : List (String × String)
deriving DecidableEq, Repr

/-- The zone label constant read from PV labels. -/
def zoneLabel : String := "failure-domain.beta.kubernetes.io/zone"

/-- A snapshot-provider instance (velero.VolumeSnapshotter capability):
GetVolumeID on the PV object, GetVolumeInfo on (volumeID, zone), and
CreateSnapshot on (volumeID, zone, tags). -/
structure VolumeSnapshotter where
  getVolumeID : PersistentVolume → Except String String
  getVolumeInfo : String → String → Except String (String × Option Int)
  createSnapshot : String → String → List (String × String) → Except String String

/-- One observable call to a snapshot provider, tagged with the snapshot
location name on whose behalf the provider was invoked. -/
inductive ProviderCall
  | getVolumeID (location : String)
  | getVolumeInfo (location : String)
  | createSnapshot (location : String)
deriving DecidableEq, Repr

/-- The location name a provider call was made for. -/
def ProviderCall.loc : ProviderCall → String
  | .getVolumeID l => l
  | .getVolumeInfo l => l
  | .createSnapshot l => l

/-- The request-scoped mutable state of one backup run that the item
backupper reads and writes: the spec switches it consults, the configured
snapshot locations, the BackedUpItems dedup set, the accumulating volume
snapshot list, the pod volume backup list, and the restic pvc snapshot
tracker contents (a set of (namespace, claim name) pairs). -/
structure Request where
  backupName : String
  backupUID : String
  includeClusterResources : Option Bool
  snapshotVolumes : Option Bool
  snapshotLocations : List VolumeSnapshotLocation
  backedUpItems : List ItemKey
  volumeSnapshots : List Snapshot
  podVolumeBackups : List String
  resticTracker : List (String × String)
deriving DecidableEq, Repr

/-- Environment of collaborator behaviour available to takePVSnapshot: how a
snapshotter is obtained for a location (embedding ib.volumeSnapshotter,
i.e. the per-run cache over GetVolumeSnapshotter plus Init, whose only
observable outcome per location is an instance or an error). -/
structure SnapEnv where
  getSnapshotter : VolumeSnapshotLocation → Except String VolumeSnapshotter

/-- Embeds the location loop of takePVSnapshot (lines 1282-1304): walk the
configured snapshot locations in order; per location obtain the snapshotter
(errors logged, loop continues), ask it for a volume ID (errors or an empty
ID logged, loop continues); the first non-empty volume ID wins and the loop
breaks. Returns the winner (snapshotter, location name, volume ID) if any,
and the trace of GetVolumeID provider calls made. -/
def snapshotLocationLoop (env : SnapEnv) (pv : PersistentVolume) :
    List VolumeSnapshotLocation →
      Option (VolumeSnapshotter × String × String) × List ProviderCall
  | [] => (none, [])
  | loc :: rest =>
    match env.getSnapshotter loc with
    | .error _ => snapshotLocationLoop env pv rest
    | .ok bs =>
      match bs.getVolumeID pv with
      | .error _ =>
        ((snapshotLocationLoop env pv rest).1,
          ProviderCall.getVolumeID loc.name :: (snapshotLocationLoop env pv rest).2)
      | .ok volumeID =>
        if volumeID = "" then
          ((snapshotLocationLoop env pv rest).1,
            ProviderCall.getVolumeID loc.name :: (snapshotLocationLoop env pv rest).2)
        else
          (some (bs, loc.name, volumeID), [ProviderCall.getVolumeID loc.name])

/-- Embeds the body of takePVSnapshot from the pvFailureDomainZone lookup
onward: location loop, volume info query, snapshot creation and the record
append (lines 1272-1339). -/
def takePVSnapshotCore (env : SnapEnv) (req : Request) (pv : PersistentVolume) :
    Except String Unit × Request × List ProviderCall :=
  let pvFailureDomainZone := ((pv.labels.lookup zoneLabel).getD "")
  let calls := (snapshotLocationLoop env pv req.snapshotLocations).2
  match (snapshotLocationLoop env pv req.snapshotLocations).1 with
  | none => (Except.ok (), req, calls)
  | some (bs, location, volumeID) =>
    let tags := [("velero.io/backup", req.backupName), ("velero.io/pv", pv.name)]
    match bs.getVolumeInfo volumeID pvFailureDomainZone with
    | .error e =>
      (Except.error ("error getting volume info: " ++ e), req,
        calls ++ [ProviderCall.getVolumeInfo location])
    | .ok (volumeType, iops) =>
      let snap := volumeSnapshot req.backupName req.backupUID pv.name volumeID volumeType
        pvFailureDomainZone location iops
      match bs.createSnapshot volumeID snap.spec.volumeAZ tags with
      | .error e =>
        let failed : Snapshot :=
          { snap with status := { snap.status with phase := SnapshotPhase.failed } }
        (Except.error ("error taking snapshot of volume: " ++ e),
          { req with volumeSnapshots := req.volumeSnapshots ++ [failed] },
          calls ++ [ProviderCall.getVolumeInfo location, ProviderCall.createSnapshot location])
      | .ok snapshotID =>
        let done : Snapshot :=
          { snap with status :=
              { phase := SnapshotPhase.completed, providerSnapshotID := snapshotID } }
        (Except.ok (),
          { req with volumeSnapshots := req.volumeSnapshots ++ [done] },
          calls ++ [ProviderCall.getVolumeInfo location, ProviderCall.createSnapshot location])

/-- Embeds defaultItemBackupper.takePVSnapshot, acting on an already
converted PersistentVolume value. Short-circuits when the backup has volume
snapshots disabled, then when the claim of the PV is already tracked by the
restic pvc snapshot tracker; otherwise runs the snapshot core. Returns the
Go error value, the updated request and the trace of provider calls. -/
def takePVSnapshot (env : SnapEnv) (req : Request) (pv : PersistentVolume) :
    Except String Unit × Request × List ProviderCall :=
  if req.snapshotVolumes = some false then
    (Except.ok (), req, [])
  else
    match pv.claimRef with
    | some claim =>
      if claim ∈ req.resticTracker then
        (Except.ok (), req, [])
      else
        takePVSnapshotCore env req pv
    | none => takePVSnapshotCore env req pv

/-- A snapshot location yields a usable volume ID for the PV: obtaining its
snapshotter succeeds and GetVolumeID returns a non-empty ID. This is the
condition under which the location loop declares that location the winner. -/
def yieldsVolumeID (env : SnapEnv) (pv : PersistentVolume)
    (loc : VolumeSnapshotLocation) : Prop :=
  ∃ bs volumeID, env.getSnapshotter loc = Except.ok bs ∧
    bs.getVolumeID pv = Except.ok volumeID ∧ volumeID ≠ ""

theorem snapshotLocationLoop_none (env : SnapEnv) (pv : PersistentVolume)
    (locs : List VolumeSnapshotLocation)
    (h : ∀ l ∈ locs, ¬ yieldsVolumeID env pv l) :
    (snapshotLocationLoop env pv locs).1 = none := by
  induction locs with
  | nil => rfl
  | cons loc rest ih =>
    have hrest : ∀ l ∈ rest, ¬ yieldsVolumeID env pv l := fun l hl =>
      h l (List.mem_cons_of_mem _ hl)
    have hloc := h loc (List.mem_cons_self _ _)
    cases hg : env.getSnapshotter loc with
    | error e =>
      simp only [snapshotLocationLoop, hg]
      exact ih hrest
    | ok bs =>
      cases hv : bs.getVolumeID pv with
      | error e =>
        simp only [snapshotLocationLoop, hg, hv]
        exact ih hrest
      | ok volumeID =>
        by_cases hid : volumeID = ""
        · simp only [snapshotLocationLoop, hg, hv, if_pos hid]
          exact ih hrest
        · exact absurd ⟨bs, volumeID, hg, hv, hid⟩ hloc

theorem snapshotLocationLoop_winner (env : SnapEnv) (pv : PersistentVolume)
    (locsA : List VolumeSnapshotLocation) (loc : VolumeSnapshotLocation)
    (locsB : List VolumeSnapshotLocation)
    (hA : ∀ l ∈ locsA, ¬ yieldsVolumeID env pv l)
    (hloc : yieldsVolumeID env pv loc) :
    ∃ bs volumeID,
      env.getSnapshotter loc = Except.ok bs ∧
      bs.getVolumeID pv = Except.ok volumeID ∧ volumeID ≠ "" ∧
      (snapshotLocationLoop env pv (locsA ++ loc :: locsB)).1
        = some (bs, loc.name, volumeID) ∧
      ∀ c ∈ (snapshotLocationLoop env pv (locsA ++ loc :: locsB)).2,
        (∃ l, c = ProviderCall.getVolumeID l) ∧
        c.loc ∈ locsA.map VolumeSnapshotLocation.name ++ [loc.name] := by
  induction locsA with
  | nil =>
    obtain ⟨bs, volumeID, hg, hv, hne⟩ := hloc
    refine ⟨bs, volumeID, hg, hv, hne, ?_, ?_⟩
    · simp [snapshotLocationLoop, hg, hv, hne]
    · intro c hc
      simp only [List.nil_append, snapshotLocationLoop, hg, hv, if_neg hne] at hc
      simp only [List.mem_singleton] at hc
      subst hc
      exact ⟨⟨loc.name, rfl⟩, by simp [ProviderCall.loc]⟩
  | cons a rest ih =>
    have hrest : ∀ l ∈ rest, ¬ yieldsVolumeID env pv l := fun l hl =>
      hA l (List.mem_cons_of_mem _ hl)
    have ha := hA a (List.mem_cons_self _ _)
    obtain ⟨bs, volumeID, hg, hv, hne, hwin, htrace⟩ := ih hrest
    have widen : ∀ c : ProviderCall, (∃ l, c = ProviderCall.getVolumeID l) ∧
        c.loc ∈ rest.map VolumeSnapshotLocation.name ++ [loc.name] →
        (∃ l, c = ProviderCall.getVolumeID l) ∧
        c.loc ∈ (a :: rest).map VolumeSnapshotLocation.name ++ [loc.name] := by
      rintro c ⟨h1, h2⟩
      refine ⟨h1, ?_⟩
      simp only [List.map_cons, List.cons_append, List.mem_cons]
      exact Or.inr (by simpa using h2)
    refine ⟨bs, volumeID, hg, hv, hne, ?_, ?_⟩
    · cases hga : env.getSnapshotter a with
      | error e =>
        simp only [List.cons_append, snapshotLocationLoop, hga]
        exact hwin
      | ok bs' =>
        cases hva : bs'.getVolumeID pv with
        | error e =>
          simp only [List.cons_append, snapshotLocationLoop, hga, hva]
          exact hwin
        | ok volumeID' =>
          by_cases hid : volumeID' = ""
          · simp only [List.cons_append, snapshotLocationLoop, hga, hva, if_pos hid]
            exact hwin
          · exact absurd ⟨bs', volumeID', hga, hva, hid⟩ ha
    · intro c hc
      cases hga : env.getSnapshotter a with
      | error e =>
        simp only [List.cons_append, snapshotLocationLoop, hga] at hc
        exact widen c (htrace c hc)
      | ok bs' =>
        cases hva : bs'.getVolumeID pv with
        | error e =>
          simp only [List.cons_append, snapshotLocationLoop, hga, hva,
            List.mem_cons] at hc
          rcases hc with hc | hc
          · subst hc
            refine ⟨⟨a.name, rfl⟩, ?_⟩
            simp [ProviderCall.loc]
          · exact widen c (htrace c hc)
        | ok volumeID' =>
          by_cases hid : volumeID' = ""
          · simp only [List.cons_append, snapshotLocationLoop, hga, hva, if_pos hid,
              List.mem_cons] at hc
            rcases hc with hc | hc
            · subst hc
              refine ⟨⟨a.name, rfl⟩, ?_⟩
              simp [ProviderCall.loc]
            · exact widen c (htrace c hc)
          · exact absurd ⟨bs', volumeID', hga, hva, hid⟩ ha

/-- C2: for every PersistentVolume whose claim is present in the restic
(file-level) snapshot tracker at the time takePVSnapshot runs, the call
returns nil without invoking CreateSnapshot on any provider (indeed without
any provider call at all) and without appending a snapshot record. -/
theorem takePVSnapshot_restic_mutual_exclusion (env : SnapEnv) (req : Request)
    (pv : PersistentVolume) (claim : String × String)
    (hc : pv.claimRef = some claim) (ht : claim ∈ req.resticTracker) :
    takePVSnapshot env req pv = (Except.ok (), req, []) ∧
    (∀ l, ProviderCall.createSnapshot l ∉ (takePVSnapshot env req pv).2.2) ∧
    (takePVSnapshot env req pv).2.1.volumeSnapshots = req.volumeSnapshots := by
  have h : takePVSnapshot env req pv = (Except.ok (), req, []) := by
    unfold takePVSnapshot
    by_cases hsv : req.snapshotVolumes = some false
    · rw [if_pos hsv]
    · rw [if_neg hsv]
      simp only [hc]
      rw [if_pos ht]
  refine ⟨h, ?_, ?_⟩
  · intro l
    rw [h]
    simp
  · rw [h]

/-- Concrete PV claimed by pvc1 in ns1. -/
def pvClaimed : PersistentVolume :=
  { name := "pv-1", claimRef := some ("ns1", "pvc1"), labels := [] }

/-- Concrete request whose restic tracker already holds the claim of
pvClaimed. -/
def reqTracked : Request :=
  { backupName := "bk", backupUID := "uid", includeClusterResources := none
    snapshotVolumes := some true, snapshotLocations := [], backedUpItems := []
    volumeSnapshots := [], podVolumeBackups := [], resticTracker := [("ns1", "pvc1")] }

/-- Environment with no reachable snapshot provider. -/
def envNoProvider : SnapEnv :=
  ⟨fun _ => Except.error "unavailable"⟩

theorem takePVSnapshot_restic_mutual_exclusion_witness :
    pvClaimed.claimRef = some ("ns1", "pvc1") ∧
    ("ns1", "pvc1") ∈ reqTracked.resticTracker ∧
    takePVSnapshot envNoProvider reqTracked pvClaimed = (Except.ok (), reqTracked, []) :=
  ⟨rfl, by decide,
    (takePVSnapshot_restic_mutual_exclusion envNoProvider reqTracked pvClaimed
      ("ns1", "pvc1") rfl (by decide)).1⟩

theorem takePVSnapshot_eq_core (env : SnapEnv) (req : Request) (pv : PersistentVolume)
    (hsv : req.snapshotVolumes ≠ some false)
    (htr : ∀ claim, pv.claimRef = some claim → claim ∉ req.resticTracker) :
    takePVSnapshot env req pv = takePVSnapshotCore env req pv := by
  unfold takePVSnapshot
  rw [if_neg hsv]
  cases hcr : pv.claimRef with
  | none => rfl
  | some claim => exact if_neg (htr claim hcr)

/-- C3: takePVSnapshot iterates the snapshot locations in configured order
and selects the first location yielding a non-empty volume ID. Every
provider call made is on behalf of that location or an earlier one, volume
info is only ever requested from the winning location, at most one record
is appended and it carries the winning location name; and if no location
yields a non-empty volume ID the call returns nil and appends no record. -/
theorem takePVSnapshot_first_location_wins (env : SnapEnv) (req : Request)
    (pv : PersistentVolume)
    (hsv : req.snapshotVolumes ≠ some false)
    (htr : ∀ claim, pv.claimRef = some claim → claim ∉ req.resticTracker) :
    (∀ locsA loc locsB, req.snapshotLocations = locsA ++ loc :: locsB →
      (∀ l ∈ locsA, ¬ yieldsVolumeID env pv l) →
      yieldsVolumeID env pv loc →
      (∀ c ∈ (takePVSnapshot env req pv).2.2,
        c.loc ∈ locsA.map VolumeSnapshotLocation.name ++ [loc.name]) ∧
      (∀ l, ProviderCall.getVolumeInfo l ∈ (takePVSnapshot env req pv).2.2 →
        l = loc.name) ∧
      ((takePVSnapshot env req pv).2.1.volumeSnapshots = req.volumeSnapshots ∨
        ∃ s, (takePVSnapshot env req pv).2.1.volumeSnapshots
            = req.volumeSnapshots ++ [s] ∧ s.spec.location = loc.name)) ∧
    ((∀ l ∈ req.snapshotLocations, ¬ yieldsVolumeID env pv l) →
      (takePVSnapshot env req pv).1 = Except.ok () ∧
      (takePVSnapshot env req pv).2.1 = req) := by
  rw [takePVSnapshot_eq_core env req pv hsv htr]
  constructor
  · intro locsA loc locsB hsplit hA hyl
    obtain ⟨bs, volumeID, hg, hv, hne, hwin, htrace⟩ :=
      snapshotLocationLoop_winner env pv locsA loc locsB hA hyl
    rw [← hsplit] at hwin htrace
    have hmem : ∀ c ∈ (snapshotLocationLoop env pv req.snapshotLocations).2,
        c.loc ∈ locsA.map VolumeSnapshotLocation.name ++ [loc.name] :=
      fun c hc => (htrace c hc).2
    have hnoinfo : ∀ l, ProviderCall.getVolumeInfo l ∉
        (snapshotLocationLoop env pv req.snapshotLocations).2 := by
      intro l hl
      obtain ⟨⟨l', hl'⟩, _⟩ := htrace _ hl
      cases hl'
    have hcalls : ∀ (tail : List ProviderCall),
        (∀ c ∈ tail, c.loc = loc.name) →
        (∀ c ∈ (snapshotLocationLoop env pv req.snapshotLocations).2 ++ tail,
          c.loc ∈ locsA.map VolumeSnapshotLocation.name ++ [loc.name]) ∧
        (∀ l, ProviderCall.getVolumeInfo l ∈
            (snapshotLocationLoop env pv req.snapshotLocations).2 ++ tail →
          l = loc.name) := by
      intro tail htail
      constructor
      · intro c hc
        rcases List.mem_append.mp hc with hc | hc
        · exact hmem c hc
        · rw [htail c hc]
          simp
      · intro l hl
        rcases List.mem_append.mp hl with hl | hl
        · exact absurd hl (hnoinfo l)
        · have := htail _ hl
          simpa [ProviderCall.loc] using this
    have htail1 : ∀ c ∈ [ProviderCall.getVolumeInfo loc.name], c.loc = loc.name := by
      intro c hc
      simp only [List.mem_singleton] at hc
      subst hc
      rfl
    have htail2 : ∀ c ∈ [ProviderCall.getVolumeInfo loc.name,
        ProviderCall.createSnapshot loc.name], c.loc = loc.name := by
      intro c hc
      rcases List.mem_cons.mp hc with h | h
      · subst h
        rfl
      · simp only [List.mem_singleton] at h
        subst h
        rfl
    cases hinfo : bs.getVolumeInfo volumeID ((pv.labels.lookup zoneLabel).getD "") with
    | error e =>
      have hred : takePVSnapshotCore env req pv =
          (Except.error ("error getting volume info: " ++ e), req,
            (snapshotLocationLoop env pv req.snapshotLocations).2
              ++ [ProviderCall.getVolumeInfo loc.name]) := by
        simp only [takePVSnapshotCore, hwin, hinfo]
      rw [hred]
      obtain ⟨h1, h2⟩ := hcalls [ProviderCall.getVolumeInfo loc.name] htail1
      exact ⟨h1, h2, Or.inl rfl⟩
    | ok info =>
      obtain ⟨volumeType, iops⟩ := info
      obtain ⟨h1, h2⟩ := hcalls
        [ProviderCall.getVolumeInfo loc.name, ProviderCall.createSnapshot loc.name] htail2
      cases hcreate : bs.createSnapshot volumeID
          ((pv.labels.lookup zoneLabel).getD "")
          [("velero.io/backup", req.backupName), ("velero.io/pv", pv.name)] with
      | error e =>
        have hred : takePVSnapshotCore env req pv =
            (Except.error ("error taking snapshot of volume: " ++ e),
              { req with volumeSnapshots := req.volumeSnapshots ++
                  [{ volumeSnapshot req.backupName req.backupUID pv.name volumeID
                      volumeType ((pv.labels.lookup zoneLabel).getD "") loc.name iops with
                     status := { phase := SnapshotPhase.failed } }] },
              (snapshotLocationLoop env pv req.snapshotLocations).2
                ++ [ProviderCall.getVolumeInfo loc.name,
                    ProviderCall.createSnapshot loc.name]) := by
          simp only [takePVSnapshotCore, volumeSnapshot, hwin, hinfo, hcreate]
        rw [hred]
        exact ⟨h1, h2, Or.inr ⟨_, rfl, rfl⟩⟩
      | ok snapshotID =>
        have hred : takePVSnapshotCore env req pv =
            (Except.ok (),
              { req with volumeSnapshots := req.volumeSnapshots ++
                  [{ volumeSnapshot req.backupName req.backupUID pv.name volumeID
                      volumeType ((pv.labels.lookup zoneLabel).getD "") loc.name iops with
                     status := { phase := SnapshotPhase.completed,
                                 providerSnapshotID := snapshotID } }] },
              (snapshotLocationLoop env pv req.snapshotLocations).2
                ++ [ProviderCall.getVolumeInfo loc.name,
                    ProviderCall.createSnapshot loc.name]) := by
          simp only [takePVSnapshotCore, volumeSnapshot, hwin, hinfo, hcreate]
        rw [hred]
        exact ⟨h1, h2, Or.inr ⟨_, rfl, rfl⟩⟩
  · intro hnone
    have hwin := snapshotLocationLoop_none env pv req.snapshotLocations hnone
    simp [takePVSnapshotCore, hwin]

/-- Snapshot location named locA with provider provA. -/
def locA : VolumeSnapshotLocation := { name := "locA", provider := "provA" }

/-- Snapshot location named locB with provider provB. -/
def locB : VolumeSnapshotLocation := { name := "locB", provider := "provB" }

/-- Provider for locA: always reports an empty volume ID. -/
def snapProviderA : VolumeSnapshotter :=
  { getVolumeID := fun _ => Except.ok ""
    getVolumeInfo := fun _ _ => Except.ok ("gp2", none)
    createSnapshot := fun _ _ _ => Except.ok "snap-a" }

/-- Provider for locB: reports volume ID vol-123 and snapshots successfully. -/
def snapProviderB : VolumeSnapshotter :=
  { getVolumeID := fun _ => Except.ok "vol-123"
    getVolumeInfo := fun _ _ => Except.ok ("gp2", none)
    createSnapshot := fun _ _ _ => Except.ok "snap-123" }

/-- Environment serving snapProviderA for locA and snapProviderB otherwise. -/
def envAB : SnapEnv :=
  ⟨fun loc => if loc.name = "locA" then Except.ok snapProviderA else Except.ok snapProviderB⟩

/-- Unclaimed PV with no labels. -/
def pvPlain : PersistentVolume := { name := "pv-2", claimRef := none, labels := [] }

/-- Request configured with snapshot locations [locA, locB]. -/
def reqAB : Request :=
  { backupName := "bk", backupUID := "uid", includeClusterResources := none
    snapshotVolumes := some true, snapshotLocations := [locA, locB], backedUpItems := []
    volumeSnapshots := [], podVolumeBackups := [], resticTracker := [] }

theorem takePVSnapshot_first_location_wins_witness :
    reqAB.snapshotVolumes ≠ some false ∧
    ((∀ c ∈ (takePVSnapshot envAB reqAB pvPlain).2.2,
        c.loc ∈ [locA].map VolumeSnapshotLocation.name ++ [locB.name]) ∧
      (∀ l, ProviderCall.getVolumeInfo l ∈ (takePVSnapshot envAB reqAB pvPlain).2.2 →
        l = locB.name) ∧
      ((takePVSnapshot envAB reqAB pvPlain).2.1.volumeSnapshots = reqAB.volumeSnapshots ∨
        ∃ s, (takePVSnapshot envAB reqAB pvPlain).2.1.volumeSnapshots
            = reqAB.volumeSnapshots ++ [s] ∧ s.spec.location = locB.name)) := by
  have hA : ∀ l ∈ [locA], ¬ yieldsVolumeID envAB pvPlain l := by
    intro l hl
    simp only [List.mem_singleton] at hl
    subst hl
    rintro ⟨bs, volumeID, hg, hv, hne⟩
    have hg' : Except.ok (ε := String) snapProviderA = Except.ok bs := hg
    cases hg'
    have hv' : Except.ok (ε := String) "" = Except.ok volumeID := hv
    cases hv'
    exact hne rfl
  have hB : yieldsVolumeID envAB pvPlain locB :=
    ⟨snapProviderB, "vol-123", rfl, rfl, by decide⟩
  refine ⟨by decide, ?_⟩
  exact (takePVSnapshot_first_location_wins envAB reqAB pvPlain (by decide)
    (fun claim h => by simp [pvPlain] at h)).1 [locA] locB [] rfl hA hB

/-- C4: on a winning location whose volume info query succeeds, exactly one
snapshot record is appended per snapshot attempt, even on failure: a
CreateSnapshot provider error appends the record in phase Failed and
takePVSnapshot returns the wrapped error, while success appends the record
in phase Completed carrying the provider snapshot ID and returns nil. -/
theorem takePVSnapshot_appends_record_per_attempt (env : SnapEnv) (req : Request)
    (pv : PersistentVolume) (bs : VolumeSnapshotter) (location volumeID : String)
    (volumeType : String) (iops : Option Int)
    (hsv : req.snapshotVolumes ≠ some false)
    (htr : ∀ claim, pv.claimRef = some claim → claim ∉ req.resticTracker)
    (hwin : (snapshotLocationLoop env pv req.snapshotLocations).1
      = some (bs, location, volumeID))
    (hinfo : bs.getVolumeInfo volumeID ((pv.labels.lookup zoneLabel).getD "")
      = Except.ok (volumeType, iops)) :
    (∀ e, bs.createSnapshot volumeID ((pv.labels.lookup zoneLabel).getD "")
        [("velero.io/backup", req.backupName), ("velero.io/pv", pv.name)]
        = Except.error e →
      (takePVSnapshot env req pv).2.1.volumeSnapshots = req.volumeSnapshots ++
        [{ volumeSnapshot req.backupName req.backupUID pv.name volumeID volumeType
            ((pv.labels.lookup zoneLabel).getD "") location iops with
           status := { phase := SnapshotPhase.failed } }] ∧
      (takePVSnapshot env req pv).1
        = Except.error ("error taking snapshot of volume: " ++ e)) ∧
    (∀ snapshotID, bs.createSnapshot volumeID ((pv.labels.lookup zoneLabel).getD "")
        [("velero.io/backup", req.backupName), ("velero.io/pv", pv.name)]
        = Except.ok snapshotID →
      (takePVSnapshot env req pv).2.1.volumeSnapshots = req.volumeSnapshots ++
        [{ volumeSnapshot req.backupName req.backupUID pv.name volumeID volumeType
            ((pv.labels.lookup zoneLabel).getD "") location iops with
           status := { phase := SnapshotPhase.completed,
                       providerSnapshotID := snapshotID } }] ∧
      (takePVSnapshot env req pv).1 = Except.ok ()) := by
  rw [takePVSnapshot_eq_core env req pv hsv htr]
  constructor
  · intro e hcreate
    have hred : takePVSnapshotCore env req pv =
        (Except.error ("error taking snapshot of volume: " ++ e),
          { req with volumeSnapshots := req.volumeSnapshots ++
              [{ volumeSnapshot req.backupName req.backupUID pv.name volumeID
                  volumeType ((pv.labels.lookup zoneLabel).getD "") location iops with
                 status := { phase := SnapshotPhase.failed } }] },
          (snapshotLocationLoop env pv req.snapshotLocations).2
            ++ [ProviderCall.getVolumeInfo location,
                ProviderCall.createSnapshot location]) := by
      simp only [takePVSnapshotCore, volumeSnapshot, hwin, hinfo, hcreate]
    rw [hred]
    exact ⟨rfl, rfl⟩
  · intro snapshotID hcreate
    have hred : takePVSnapshotCore env req pv =
        (Except.ok (),
          { req with volumeSnapshots := req.volumeSnapshots ++
              [{ volumeSnapshot req.backupName req.backupUID pv.name volumeID
                  volumeType ((pv.labels.lookup zoneLabel).getD "") location iops with
                 status := { phase := SnapshotPhase.completed,
                             providerSnapshotID := snapshotID } }] },
          (snapshotLocationLoop env pv req.snapshotLocations).2
            ++ [ProviderCall.getVolumeInfo location,
                ProviderCall.createSnapshot location]) := by
      simp only [takePVSnapshotCore, volumeSnapshot, hwin, hinfo, hcreate]
    rw [hred]
    exact ⟨rfl, rfl⟩

theorem takePVSnapshot_appends_record_per_attempt_witness :
    reqAB.snapshotVolumes ≠ some false ∧
    (snapshotLocationLoop envAB pvPlain reqAB.snapshotLocations).1
      = some (snapProviderB, "locB", "vol-123") ∧
    ((takePVSnapshot envAB reqAB pvPlain).2.1.volumeSnapshots = reqAB.volumeSnapshots ++
        [{ volumeSnapshot reqAB.backupName reqAB.backupUID pvPlain.name "vol-123" "gp2"
            ((pvPlain.labels.lookup zoneLabel).getD "") "locB" none with
           status := { phase := SnapshotPhase.completed,
                       providerSnapshotID := "snap-123" } }] ∧
      (takePVSnapshot envAB reqAB pvPlain).1 = Except.ok ()) :=
  ⟨by decide, rfl,
    (takePVSnapshot_appends_record_per_attempt envAB reqAB pvPlain snapProviderB
      "locB" "vol-123" "gp2" none (by decide)
      (fun claim h => by simp [pvPlain] at h) rfl rfl).2 "snap-123" rfl⟩

/-- Phases of a Restore resource. -/
inductive RestorePhase
  | new
  | failedValidation
  | inProgress
  | completed
  | partiallyFailed
  | failed
deriving DecidableEq, Repr

/-- Phases of a Backup resource (the restore controller only distinguishes
Completed from the rest). -/
inductive BackupPhase
  | new
  | inProgress
  | completed
  | partiallyFailed
  | failed
  | failedValidation
  | deleting
deriving DecidableEq, Repr

/-- The Backup fields the restore controller reads: name, phase, start
timestamp (an integer instant; only its order matters) and the value of the
velero.io/schedule-name label. -/
structure Backup where
  name : String
  phase : BackupPhase
  startTimestamp : Int
  scheduleLabel : String
deriving DecidableEq, Repr

/-- The Restore spec fields touched by validation. -/
structure RestoreSpec where
  backupName : String
  scheduleName : String
  includedResources : List String
  excludedResources : List String
  includedNamespaces : List String
  excludedNamespaces : List String
deriving DecidableEq, Repr

/-- The Restore status fields touched by the controller. -/
structure RestoreStatus where
  phase : RestorePhase
  validationErrors : List String
  failureReason : String
  warnings : Nat
  errors : Nat
deriving DecidableEq, Repr

/-- A Restore resource. -/
structure Restore where
  ns : String
  name : String
  spec : RestoreSpec
  status : RestoreStatus
deriving DecidableEq, Repr

/-- The fixed deny-list of non-restorable resources. -/
def nonRestorableResources : List String :=
  ["nodes", "events", "events.events.k8s.io", "backups.velero.io",
   "restores.velero.io", "resticrepositories.velero.io"]

/-- Collaborators of the restore controller, as observable behaviour:
ValidateIncludesExcludes from the collections package (returns the list of
error messages), the backup lister filtered by the schedule-name label
selector, fetchBackupInfo (backup lister get, storage-location lookup and
backup-store construction collapsed into one fallible call), the patch call
to the API server (true means the merge patch was applied), and
runValidatedRestore collapsed to its observable outcome: an error, or the
final (errors, warnings) counts it writes into the restore status. -/
structure RestoreEnv where
  validateIncludesExcludes : List String → List String → List String
  listBackups : String → Except String (List Backup)
  fetchBackupInfo : String → Except String Backup
  patchOk : Restore → Restore → Bool
  runRestore : Restore → Option Backup → Except String (Nat × Nat)

/-- Embeds backupXorScheduleProvided: true when exactly one of BackupName
and ScheduleName is non-empty. -/
def backupXorScheduleProvided (restore : Restore) : Bool :=
  if restore.spec.backupName ≠ "" ∧ restore.spec.scheduleName ≠ "" then false
  else if restore.spec.backupName = "" ∧ restore.spec.scheduleName = "" then false
  else true

/-- The comparator of mostRecentCompletedBackup: a sorts before b when the
start timestamp of b is not later (descending start order; the source calls
sort.Slice with After, and sort.Slice guarantees only the resulting order). -/
def startDescending (a b : Backup) : Prop :=
  b.startTimestamp ≤ a.startTimestamp

instance : DecidableRel startDescending := fun a b =>
  inferInstanceAs (Decidable (b.startTimestamp ≤ a.startTimestamp))

instance : IsTotal Backup startDescending :=
  ⟨fun a b => le_total b.startTimestamp a.startTimestamp⟩

instance : IsTrans Backup startDescending :=
  ⟨fun _ _ _ hab hbc => le_trans hbc hab⟩

/-- Embeds mostRecentCompletedBackup: sort the backups descending by start
timestamp, return the first one in phase Completed. -/
def mostRecentCompletedBackup (backups : List Backup) : Option Backup :=
  (backups.insertionSort startDescending).find?
    (fun b => decide (b.phase = BackupPhase.completed))

/-- Embeds the fetchBackupInfo step at the end of validateAndComplete: on
error a validation error is recorded; on success the ScheduleName is filled
in from the backup label when it was empty. -/
def fetchStep (env : RestoreEnv) (r : Restore) : Option Backup × Restore :=
  match env.fetchBackupInfo r.spec.backupName with
  | .error e =>
    (none, { r with status.validationErrors :=
      r.status.validationErrors ++ ["Error retrieving backup: " ++ e] })
  | .ok backup =>
    if r.spec.scheduleName = "" then
      (some backup, { r with spec.scheduleName := backup.scheduleLabel })
    else
      (some backup, r)

/-- Appends one validation error to the restore status. -/
def addValidationError (r : Restore) (e : String) : Restore :=
  { r with status.validationErrors := r.status.validationErrors ++ [e] }

/-- Embeds the first four steps of validateAndComplete: append the
non-restorable deny-list to the excluded resources, flag explicitly
included non-restorable resources, and validate the resource and namespace
include/exclude list pairs. Only ExcludedResources and ValidationErrors are
touched; in particular BackupName and ScheduleName are unchanged. -/
def validationPhase1 (env : RestoreEnv) (restore : Restore) : Restore :=
  let excluded0 : List String := restore.spec.excludedResources
  let spec1 : RestoreSpec :=
    { restore.spec with
      excludedResources :=
        excluded0 ++ nonRestorableResources.filter (fun nr => decide (nr ∉ excluded0)) }
  let errs1 := (nonRestorableResources.filter
      (fun nr => decide (nr ∈ spec1.includedResources))).map
    (fun nr => nr ++ " are non-restorable resources")
  let errs2 := (env.validateIncludesExcludes spec1.includedResources
      spec1.excludedResources).map
    (fun e => "Invalid included/excluded resource lists: " ++ e)
  let errs3 := (env.validateIncludesExcludes spec1.includedNamespaces
      spec1.excludedNamespaces).map
    (fun e => "Invalid included/excluded namespace lists: " ++ e)
  { restore with
    spec := spec1
    status.validationErrors :=
      restore.status.validationErrors ++ errs1 ++ errs2 ++ errs3 }

/-- Embeds restoreController.validateAndComplete. Returns the resolved
backup info (none when validation failed) and the mutated restore. The
branching conditions read BackupName and ScheduleName, which
validationPhase1 leaves untouched, so they are checked on the incoming
restore value. -/
def validateAndComplete (env : RestoreEnv) (restore : Restore) :
    Option Backup × Restore :=
  let r1 := validationPhase1 env restore
  if backupXorScheduleProvided restore then
    if restore.spec.scheduleName ≠ "" then
      match env.listBackups restore.spec.scheduleName with
      | .error _ =>
        (none, addValidationError r1 "Unable to list backups for schedule")
      | .ok backups =>
        let r2 := if backups.length = 0 then
            addValidationError r1 "No backups found for schedule"
          else r1
        match mostRecentCompletedBackup backups with
        | some b => fetchStep env { r2 with spec.backupName := b.name }
        | none =>
          (none, addValidationError r2 "No completed backups found for schedule")
    else
      fetchStep env r1
  else
    (none, addValidationError r1
      "Either a backup or schedule must be specified as a source for the restore, but not both")

/-- Observable controller actions of one processRestore call: a successful
phase patch, the invocation of restore execution, and a failed final patch. -/
inductive REvent
  | patched (phase : RestorePhase)
  | run
  | finalPatchFailed
deriving DecidableEq, Repr

/-- Embeds the tail of processRestore after execution: the final status
patch is best effort (a failure is logged, not returned) and the reconciler
returns nil so the restore is never reprocessed. -/
def finalizeRestore (env : RestoreEnv) (r2 r3 : Restore) :
    Except String Unit × Restore × List REvent :=
  (Except.ok (), r3,
    [REvent.patched RestorePhase.inProgress, REvent.run] ++
      (if env.patchOk r2 r3 then [REvent.patched r3.status.phase]
       else [REvent.finalPatchFailed]))

/-- Embeds restoreController.processRestore: validate, set FailedValidation
or InProgress, patch (a failure here is returned, re-enqueueing the still
New restore), stop on FailedValidation, otherwise run the validated restore
and decide the terminal phase in order Failed, PartiallyFailed, Completed. -/
def processRestore (env : RestoreEnv) (restore : Restore) :
    Except String Unit × Restore × List REvent :=
  let vc := validateAndComplete env restore
  let r1 := vc.2
  let r2 := if r1.status.validationErrors.length > 0 then
      { r1 with status.phase := RestorePhase.failedValidation }
    else
      { r1 with status.phase := RestorePhase.inProgress }
  if env.patchOk restore r2 then
    if r2.status.phase = RestorePhase.failedValidation then
      (Except.ok (), r2, [REvent.patched RestorePhase.failedValidation])
    else
      match env.runRestore r2 vc.1 with
      | .error e =>
        finalizeRestore env r2
          { r2 with status.phase := RestorePhase.failed, status.failureReason := e }
      | .ok counts =>
        let rc := { r2 with status.errors := counts.1, status.warnings := counts.2 }
        if counts.1 > 0 then
          finalizeRestore env r2 { rc with status.phase := RestorePhase.partiallyFailed }
        else
          finalizeRestore env r2 { rc with status.phase := RestorePhase.completed }
  else
    (Except.error "error updating Restore phase", r2, [])

/-- C5: a restore whose spec has BackupName and ScheduleName both non-empty
or both empty records the validation error about requiring exactly one
source, its phase becomes FailedValidation directly from its current (New)
phase, and restore execution never starts: no run event and no successful
patch to InProgress occur. -/
theorem processRestore_xor_validation (env : RestoreEnv) (restore : Restore)
    (h : (restore.spec.backupName = "" ∧ restore.spec.scheduleName = "") ∨
      (restore.spec.backupName ≠ "" ∧ restore.spec.scheduleName ≠ "")) :
    "Either a backup or schedule must be specified as a source for the restore, but not both"
      ∈ (processRestore env restore).2.1.status.validationErrors ∧
    (processRestore env restore).2.1.status.phase = RestorePhase.failedValidation ∧
    REvent.run ∉ (processRestore env restore).2.2 ∧
    REvent.patched RestorePhase.inProgress ∉ (processRestore env restore).2.2 := by
  have hx : backupXorScheduleProvided restore = false := by
    unfold backupXorScheduleProvided
    rcases h with ⟨h1, h2⟩ | ⟨h1, h2⟩
    · simp [h1, h2]
    · simp [h1, h2]
  have hveq : validateAndComplete env restore
      = (none, addValidationError (validationPhase1 env restore)
          "Either a backup or schedule must be specified as a source for the restore, but not both") := by
    simp [validateAndComplete, hx]
  have hlen : (validateAndComplete env restore).2.status.validationErrors.length > 0 := by
    rw [hveq]
    simp [addValidationError]
  simp only [processRestore, if_pos hlen]
  by_cases hp : env.patchOk restore
    { (validateAndComplete env restore).2 with status :=
      { (validateAndComplete env restore).2.status with
        phase := RestorePhase.failedValidation } } = true
  · rw [if_pos hp]
    rw [hveq]
    simp [addValidationError]
  · rw [if_neg hp]
    rw [hveq]
    simp [addValidationError]

/-- Concrete environment whose collaborators all succeed trivially. -/
def envSimple : RestoreEnv :=
  { validateIncludesExcludes := fun _ _ => []
    listBackups := fun _ => Except.ok []
    fetchBackupInfo := fun _ => Except.ok
      { name := "b1", phase := BackupPhase.completed, startTimestamp := 0, scheduleLabel := "" }
    patchOk := fun _ _ => true
    runRestore := fun _ _ => Except.ok (0, 0) }

/-- Concrete restore with both BackupName and ScheduleName set. -/
def restoreBoth : Restore :=
  { ns := "velero", name := "r1"
    spec := { backupName := "b1", scheduleName := "s1", includedResources := []
              excludedResources := [], includedNamespaces := [], excludedNamespaces := [] }
    status := { phase := RestorePhase.new, validationErrors := [], failureReason := ""
                warnings := 0, errors := 0 } }

theorem processRestore_xor_validation_witness :
    (restoreBoth.spec.backupName ≠ "" ∧ restoreBoth.spec.scheduleName ≠ "") ∧
    "Either a backup or schedule must be specified as a source for the restore, but not both"
      ∈ (processRestore envSimple restoreBoth).2.1.status.validationErrors ∧
    (processRestore envSimple restoreBoth).2.1.status.phase = RestorePhase.failedValidation ∧
    REvent.run ∉ (processRestore envSimple restoreBoth).2.2 :=
  ⟨⟨by decide, by decide⟩,
    (processRestore_xor_validation envSimple restoreBoth
      (Or.inr ⟨by decide, by decide⟩)).1,
    (processRestore_xor_validation envSimple restoreBoth
      (Or.inr ⟨by decide, by decide⟩)).2.1,
    (processRestore_xor_validation envSimple restoreBoth
      (Or.inr ⟨by decide, by decide⟩)).2.2.1⟩

theorem find?_max_of_pairwise (l : List Backup)
    (hs : List.Pairwise startDescending l) (b : Backup)
    (hb : l.find? (fun x => decide (x.phase = BackupPhase.completed)) = some b) :
    ∀ c ∈ l, c.phase = BackupPhase.completed →
      c.startTimestamp ≤ b.startTimestamp := by
  induction l with
  | nil => cases hb
  | cons x t ih =>
    rw [List.pairwise_cons] at hs
    by_cases hx : x.phase = BackupPhase.completed
    · rw [List.find?_cons_of_pos _ (by simpa using hx)] at hb
      cases hb
      intro c hc hcph
      rcases List.mem_cons.mp hc with hc | hc
      · subst hc
        exact le_refl _
      · exact hs.1 c hc
    · rw [List.find?_cons_of_neg _ (by simpa using hx)] at hb
      intro c hc hcph
      rcases List.mem_cons.mp hc with hc | hc
      · subst hc
        exact absurd hcph hx
      · exact ih hs.2 hb c hc hcph

theorem mostRecentCompletedBackup_some (backups : List Backup) (b : Backup)
    (hb : mostRecentCompletedBackup backups = some b) :
    b ∈ backups ∧ b.phase = BackupPhase.completed ∧
    ∀ c ∈ backups, c.phase = BackupPhase.completed →
      c.startTimestamp ≤ b.startTimestamp := by
  unfold mostRecentCompletedBackup at hb
  have hperm := List.perm_insertionSort startDescending backups
  have hsorted := List.sorted_insertionSort startDescending backups
  refine ⟨hperm.mem_iff.mp (List.mem_of_find?_eq_some hb), ?_, ?_⟩
  · have := List.find?_some hb
    simpa using this
  · intro c hc hcph
    exact find?_max_of_pairwise _ hsorted b hb c (hperm.mem_iff.mpr hc) hcph

theorem mostRecentCompletedBackup_none (backups : List Backup)
    (h : mostRecentCompletedBackup backups = none) :
    ∀ c ∈ backups, c.phase ≠ BackupPhase.completed := by
  unfold mostRecentCompletedBackup at h
  have hperm := List.perm_insertionSort startDescending backups
  intro c hc hcph
  have := List.find?_eq_none.mp h c (hperm.mem_iff.mpr hc)
  simp [hcph] at this

theorem mostRecentCompletedBackup_eq_none (backups : List Backup)
    (h : ∀ c ∈ backups, c.phase ≠ BackupPhase.completed) :
    mostRecentCompletedBackup backups = none := by
  unfold mostRecentCompletedBackup
  have hperm := List.perm_insertionSort startDescending backups
  rw [List.find?_eq_none]
  intro c hc
  simpa using h c (hperm.mem_iff.mp hc)

theorem fetchStep_backupName (env : RestoreEnv) (r : Restore) :
    (fetchStep env r).2.spec.backupName = r.spec.backupName := by
  unfold fetchStep
  cases env.fetchBackupInfo r.spec.backupName with
  | error e => rfl
  | ok backup =>
    by_cases h : r.spec.scheduleName = ""
    · simp [h]
    · simp [h]

/-- C6: when a restore specifies a schedule name, validation resolves it to
the completed backup with the greatest start timestamp among the schedules
backups; a schedule with no backups, or with no completed backup, is a
validation error. -/
theorem validateAndComplete_schedule_resolution (env : RestoreEnv) (restore : Restore)
    (hsch : restore.spec.scheduleName ≠ "")
    (hbn : restore.spec.backupName = "")
    (backups : List Backup)
    (hlist : env.listBackups restore.spec.scheduleName = Except.ok backups) :
    ((∃ b ∈ backups, b.phase = BackupPhase.completed) →
      ∃ chosen, mostRecentCompletedBackup backups = some chosen ∧
        chosen ∈ backups ∧ chosen.phase = BackupPhase.completed ∧
        (∀ c ∈ backups, c.phase = BackupPhase.completed →
          c.startTimestamp ≤ chosen.startTimestamp) ∧
        (validateAndComplete env restore).2.spec.backupName = chosen.name) ∧
    (backups = [] →
      "No backups found for schedule"
        ∈ (validateAndComplete env restore).2.status.validationErrors) ∧
    ((∀ b ∈ backups, b.phase ≠ BackupPhase.completed) →
      "No completed backups found for schedule"
        ∈ (validateAndComplete env restore).2.status.validationErrors ∧
      (validateAndComplete env restore).1 = none) := by
  have hx : backupXorScheduleProvided restore = true := by
    simp [backupXorScheduleProvided, hbn, hsch]
  refine ⟨?_, ?_, ?_⟩
  · rintro ⟨b0, hb0, hb0c⟩
    cases hm : mostRecentCompletedBackup backups with
    | none => exact absurd hb0c (mostRecentCompletedBackup_none backups hm b0 hb0)
    | some chosen =>
      obtain ⟨hc1, hc2, hc3⟩ := mostRecentCompletedBackup_some backups chosen hm
      refine ⟨chosen, rfl, hc1, hc2, hc3, ?_⟩
      simp [validateAndComplete, hx, hsch, hlist, hm, fetchStep_backupName]
  · intro hempty
    subst hempty
    simp [validateAndComplete, hx, hsch, hlist, mostRecentCompletedBackup,
      addValidationError]
  · intro hnocomp
    have hm := mostRecentCompletedBackup_eq_none backups hnocomp
    constructor
    · simp [validateAndComplete, hx, hsch, hlist, hm, addValidationError]
    · simp [validateAndComplete, hx, hsch, hlist, hm]

/-- Backup started at T=10 in phase Completed. -/
def backupT10 : Backup :=
  { name := "b10", phase := BackupPhase.completed, startTimestamp := 10, scheduleLabel := "s1" }

/-- Backup started at T=20 in phase Failed. -/
def backupT20 : Backup :=
  { name := "b20", phase := BackupPhase.failed, startTimestamp := 20, scheduleLabel := "s1" }

/-- Backup started at T=5 in phase Completed. -/
def backupT5 : Backup :=
  { name := "b5", phase := BackupPhase.completed, startTimestamp := 5, scheduleLabel := "s1" }

/-- Environment whose backup lister returns the T=10/T=20/T=5 example. -/
def envSched : RestoreEnv :=
  { envSimple with
    listBackups := fun _ => Except.ok [backupT10, backupT20, backupT5]
    fetchBackupInfo := fun n => Except.ok
      { name := n, phase := BackupPhase.completed, startTimestamp := 10, scheduleLabel := "s1" } }

/-- Concrete restore naming only a schedule. -/
def restoreSched : Restore :=
  { restoreBoth with spec := { restoreBoth.spec with backupName := "", scheduleName := "s1" } }

theorem validateAndComplete_schedule_resolution_witness :
    restoreSched.spec.scheduleName ≠ "" ∧
    restoreSched.spec.backupName = "" ∧
    mostRecentCompletedBackup [backupT10, backupT20, backupT5] = some backupT10 ∧
    (∃ chosen, mostRecentCompletedBackup [backupT10, backupT20, backupT5] = some chosen ∧
      chosen ∈ [backupT10, backupT20, backupT5] ∧
      chosen.phase = BackupPhase.completed ∧
      (∀ c ∈ [backupT10, backupT20, backupT5], c.phase = BackupPhase.completed →
        c.startTimestamp ≤ chosen.startTimestamp) ∧
      (validateAndComplete envSched restoreSched).2.spec.backupName = chosen.name) :=
  ⟨by decide, by decide, by decide,
    (validateAndComplete_schedule_resolution envSched restoreSched (by decide) (by decide)
      [backupT10, backupT20, backupT5] rfl).1 ⟨backupT10, by decide, by decide⟩⟩

/-- C7: once a restore has passed validation and been patched to InProgress,
processRestore always returns nil (a final patch failure is swallowed) and
the terminal phase is decided in order: Failed with the failure reason when
runValidatedRestore errors, else PartiallyFailed when the error count is
positive, else Completed. -/
theorem processRestore_terminal_phase (env : RestoreEnv) (restore : Restore)
    (hval : (validateAndComplete env restore).2.status.validationErrors = [])
    (hpatch : env.patchOk restore
      { (validateAndComplete env restore).2 with status :=
        { (validateAndComplete env restore).2.status with
          phase := RestorePhase.inProgress } } = true) :
    (processRestore env restore).1 = Except.ok () ∧
    (∀ e, env.runRestore
        { (validateAndComplete env restore).2 with status :=
          { (validateAndComplete env restore).2.status with
            phase := RestorePhase.inProgress } }
        (validateAndComplete env restore).1 = Except.error e →
      (processRestore env restore).2.1.status.phase = RestorePhase.failed ∧
      (processRestore env restore).2.1.status.failureReason = e) ∧
    (∀ counts, env.runRestore
        { (validateAndComplete env restore).2 with status :=
          { (validateAndComplete env restore).2.status with
            phase := RestorePhase.inProgress } }
        (validateAndComplete env restore).1 = Except.ok counts →
      (0 < counts.1 →
        (processRestore env restore).2.1.status.phase = RestorePhase.partiallyFailed) ∧
      (counts.1 = 0 →
        (processRestore env restore).2.1.status.phase = RestorePhase.completed)) := by
  have hlen : ¬ ((validateAndComplete env restore).2.status.validationErrors.length > 0) := by
    rw [hval]
    simp
  refine ⟨?_, ?_, ?_⟩
  · simp only [processRestore, if_neg hlen, if_pos hpatch]
    cases hrun : env.runRestore
        { (validateAndComplete env restore).2 with status :=
          { (validateAndComplete env restore).2.status with
            phase := RestorePhase.inProgress } }
        (validateAndComplete env restore).1 with
    | error e => simp [hrun, finalizeRestore]
    | ok counts =>
      by_cases hc : 0 < counts.1
      · simp [hrun, hc, finalizeRestore]
      · simp [hrun, hc, finalizeRestore]
  · intro e hrun
    simp only [processRestore, if_neg hlen, if_pos hpatch]
    simp [hrun, finalizeRestore]
  · intro counts hrun
    constructor
    · intro hc
      simp only [processRestore, if_neg hlen, if_pos hpatch]
      simp [hrun, hc, finalizeRestore]
    · intro hc
      simp only [processRestore, if_neg hlen, if_pos hpatch]
      simp [hrun, hc, finalizeRestore]

/-- Environment whose execution fails and whose final patch also fails: the
first patch (to InProgress) succeeds, the final one does not. -/
def envRunFails : RestoreEnv :=
  { envSimple with
    runRestore := fun _ _ => Except.error "boom"
    patchOk := fun _ r => decide (r.status.phase = RestorePhase.inProgress) }

/-- Concrete restore naming only a backup. -/
def restoreBackupOnly : Restore :=
  { restoreBoth with spec := { restoreBoth.spec with backupName := "b1", scheduleName := "" } }

theorem processRestore_terminal_phase_witness :
    (validateAndComplete envRunFails restoreBackupOnly).2.status.validationErrors = [] ∧
    (processRestore envRunFails restoreBackupOnly).1 = Except.ok () ∧
    (processRestore envRunFails restoreBackupOnly).2.1.status.phase = RestorePhase.failed ∧
    (processRestore envRunFails restoreBackupOnly).2.1.status.failureReason = "boom" :=
  ⟨rfl,
    (processRestore_terminal_phase envRunFails restoreBackupOnly rfl rfl).1,
    ((processRestore_terminal_phase envRunFails restoreBackupOnly rfl rfl).2.1 "boom" rfl).1,
    ((processRestore_terminal_phase envRunFails restoreBackupOnly rfl rfl).2.1 "boom" rfl).2⟩

/-- Hook phases of the item hook handler. -/
inductive HookPhase
  | pre
  | post
deriving DecidableEq, Repr

/-- A pod as seen by the item backupper after the unstructured conversion:
identity, the volumes to back up with restic (read from the pod annotation
by restic.GetVolumesToBackup) and, for each volume backed by a PVC, the
claim name. -/
structure Pod where
  ns : String
  name : String
  volumesToBackup : List String
  pvcOfVolume : List (String × String)
deriving DecidableEq, Repr

/-- Modelled from the spec: pvcSnapshotTracker.Track records the
(namespace, claim name) pair of every to-be-backed-up pod volume that is
backed by a PVC (spec section 3, Restic/file-level Snapshot Tracker; the
tracker source file is not among the given sources, only its Track and Has
call sites in backupItem and takePVSnapshot are). -/
def trackPod (tracker : List (String × String)) (pod : Pod) (volumes : List String) :
    List (String × String) :=
  tracker ++ (volumes.filterMap fun v =>
    (pod.pvcOfVolume.lookup v).map fun pvc => (pod.ns, pvc))

/-- A generic resource item: the resourceKey string derived from its
group-version-kind, metadata namespace and name, deletion-timestamp flag,
labels, and the remaining unstructured content as an opaque payload. -/
structure Item where
  resource : String
  ns : String
  name : String
  hasDeletionTimestamp : Bool
  labels : List (String × String)
  payload : String
deriving DecidableEq, Repr

/-- The dedup key built in backupItem from resourceKey(obj) and the item
metadata. -/
def itemKey (obj : Item) : ItemKey :=
  { resource := obj.resource, ns := obj.ns, name := obj.name }

/-- Reference to an additional item returned by a custom action. -/
structure AdditionalItemRef where
  groupResource : String
  ns : String
  name : String
deriving DecidableEq, Repr

/-- A resolved custom action: its precomputed matchers and its Execute
capability, which returns the (possibly mutated) item and additional item
references. -/
structure ResolvedAction where
  resourceMatch : String → Bool
  namespaceMatch : String → Bool
  namespaceIncludeEverything : Bool
  labelSelectorMatches : List (String × String) → Bool
  execute : Item → Except String (Item × List AdditionalItemRef)

/-- Collaborator environment of the item backupper: the request include and
exclude matchers, the item hook handler (returning an error message or
none, per phase), the resolved actions, the unstructured converters to Pod
and PersistentVolume, discovery plus dynamic-client fetch of an additional
item (returning its group resource and the live object), the optional
restic backupper (BackupPodVolumes returning PodVolumeBackup references
and errors), and the snapshot environment. -/
structure BackupEnv where
  nsInclude : String → Bool
  resInclude : String → Bool
  handleHooks : HookPhase → String → Item → Option String
  resolvedActions : List ResolvedAction
  podOf : Item → Except String Pod
  pvOf : Item → Except String PersistentVolume
  getAdditionalItem : AdditionalItemRef → Except String (String × Item)
  resticBackupper : Option (Pod → List String → List String × List String)
  snap : SnapEnv

/-- Observable events of one backup run: hook handler invocations, custom
action executions, provider calls and tar archive writes. -/
inductive BEvent
  | hook (phase : HookPhase) (name : String)
  | actionExecuted (name : String)
  | provider (c : ProviderCall)
  | wrote (path : String)
deriving DecidableEq, Repr

/-- The run state threaded through item backup: the Backup Request plus the
tar archive contents (the Go tar writer is modelled as an append-only list;
write errors of the underlying stream are not modelled) and the event
trace. -/
structure RunState where
  req : Request
  archive : List (String × Item)
  trace : List BEvent
deriving DecidableEq, Repr

/-- Embeds the filePath computation of backupItem (api.ResourcesDir,
api.NamespaceScopedDir, api.ClusterScopedDir joined by the path
separator). -/
def itemFilePath (groupResource ns name : String) : String :=
  if ns ≠ "" then
    "resources/" ++ groupResource ++ "/namespaces/" ++ ns ++ "/" ++ name ++ ".json"
  else
    "resources/" ++ groupResource ++ "/cluster/" ++ name ++ ".json"

/-- Embeds kubeerrs.NewAggregate on the collected error messages (the
aggregate carries every message; the exact formatting is immaterial). -/
def aggregateErrors (errs : List String) : String :=
  String.intercalate ", " errs

/-- Embeds takePVSnapshot including the unstructured-to-PV conversion: the
snapshot-disabled check precedes the conversion, as in the source. -/
def takePVSnapshotObj (env : SnapEnv) (pvOf : Item → Except String PersistentVolume)
    (req : Request) (obj : Item) : Except String Unit × Request × List ProviderCall :=
  if req.snapshotVolumes = some false then
    (Except.ok (), req, [])
  else
    match pvOf obj with
    | .error e => (Except.error e, req, [])
    | .ok pv => takePVSnapshot env req pv

/-- Embeds defaultItemBackupper.backupPodVolumes: no volumes or no restic
backupper mean a silent no-op. -/
def backupPodVolumes (env : BackupEnv) (pod : Pod) (volumes : List String) :
    List String × List String :=
  if volumes.length = 0 then ([], [])
  else
    match env.resticBackupper with
    | none => ([], [])
    | some backupper => backupper pod volumes

/-- Embeds the pod-detection step of backupItem: for a pod item, convert it
(a conversion error is collected and the pod treated as absent), compute
the restic volumes to back up, and track their PVCs. Returns the pod, the
volumes, the collected errors and the updated state. -/
def podStage (env : BackupEnv) (st : RunState) (obj : Item) (groupResource : String) :
    Option Pod × List String × List String × RunState :=
  if groupResource = "pods" then
    match env.podOf obj with
    | .error e => (none, [], [e], st)
    | .ok pod =>
      (some pod, pod.volumesToBackup, [],
        { st with req.resticTracker :=
            trackPod st.req.resticTracker pod pod.volumesToBackup })
  else (none, [], [], st)

/-- Embeds the PV-snapshot step of backupItem: for a PersistentVolume item
run takePVSnapshot on the action-updated object, collect its error and
merge the updated request and the provider calls into the state. -/
def pvStage (env : BackupEnv) (st : RunState) (obj2 : Item) (groupResource : String) :
    List String × RunState :=
  if groupResource = "persistentvolumes" then
    let r := takePVSnapshotObj env.snap env.pvOf st.req obj2
    ((match r.1 with | .error e => [e] | .ok _ => []),
      { st with req := r.2.1, trace := st.trace ++ r.2.2.map BEvent.provider })
  else ([], st)

/-- Embeds the pod-volume-backup step of backupItem: hand the detected
volumes to the restic backupper and ASSIGN the returned references to the
request PodVolumeBackups field, as the source does at line 1097. -/
def podVolumeStage (env : BackupEnv) (st : RunState) (pod : Option Pod)
    (volumes : List String) (groupResource : String) : List String × RunState :=
  if groupResource = "pods" then
    match pod with
    | some p =>
      let r := backupPodVolumes env p volumes
      (r.2, { st with req.podVolumeBackups := r.1 })
    | none => ([], st)
  else ([], st)

/-- Embeds the post-hook invocation: record the event, collect the hook
error if any. -/
def postHookStage (env : BackupEnv) (st : RunState) (obj : Item)
    (groupResource : String) : List String × RunState :=
  ((match env.handleHooks HookPhase.post groupResource obj with
    | some e => [e]
    | none => []),
    { st with trace := st.trace ++ [BEvent.hook HookPhase.post obj.name] })

/-- Embeds the item serialization: append the JSON entry for the
action-updated object at its deterministic path. -/
def serializeItem (st : RunState) (obj2 : Item) (groupResource : String) : RunState :=
  { st with
    archive := st.archive ++ [(itemFilePath groupResource obj2.ns obj2.name, obj2)]
    trace := st.trace ++ [BEvent.wrote (itemFilePath groupResource obj2.ns obj2.name)] }

/-- Embeds the additional-items inner loop of executeActions: resolve each
reference through discovery and the dynamic client, then recursively back
the item up; the first failure aborts the whole action execution step. -/
def backupAdditionalLoop
    (recurse : RunState → Item → String → Except String Unit × RunState)
    (env : BackupEnv) :
    List AdditionalItemRef → RunState → Except String Unit × RunState
  | [], st => (Except.ok (), st)
  | ref :: rest, st =>
    match env.getAdditionalItem ref with
    | .error e => (Except.error e, st)
    | .ok gi =>
      match recurse st gi.2 gi.1 with
      | (.error e, st') => (Except.error e, st')
      | (.ok _, st') => backupAdditionalLoop recurse env rest st'

/-- Embeds the action loop of executeActions: per action, test the resource,
namespace and label matchers against the ORIGINAL namespace and labels (the
source captures name, namespace and the metadata accessor before the loop),
then execute; additional items are recursively backed up depth-first before
the next action runs on the updated object. -/
def executeActionsLoop
    (recurse : RunState → Item → String → Except String Unit × RunState)
    (env : BackupEnv) (origNs : String) (origLabels : List (String × String)) :
    List ResolvedAction → RunState → Item → String → Except String Item × RunState
  | [], st, obj, _ => (Except.ok obj, st)
  | action :: rest, st, obj, groupResource =>
    if ¬ action.resourceMatch groupResource then
      executeActionsLoop recurse env origNs origLabels rest st obj groupResource
    else if origNs ≠ "" ∧ ¬ action.namespaceMatch origNs then
      executeActionsLoop recurse env origNs origLabels rest st obj groupResource
    else if origNs = "" ∧ ¬ action.namespaceIncludeEverything then
      executeActionsLoop recurse env origNs origLabels rest st obj groupResource
    else if ¬ action.labelSelectorMatches origLabels then
      executeActionsLoop recurse env origNs origLabels rest st obj groupResource
    else
      let stE : RunState := { st with trace := st.trace ++ [BEvent.actionExecuted obj.name] }
      match action.execute obj with
      | .error e => (Except.error ("error executing custom action: " ++ e), stE)
      | .ok res =>
        match backupAdditionalLoop recurse env res.2 stE with
        | (.error e, st') => (Except.error e, st')
        | (.ok _, st') =>
          executeActionsLoop recurse env origNs origLabels rest st' res.1 groupResource

/-- The state right after the dedup check passed: the key is recorded in
BackedUpItems (before any processing, so a transitive re-request of the
same item short-circuits) and the pre-hook invocation is logged. -/
def dedupInsertState (st : RunState) (obj : Item) : RunState :=
  { st with
    req.backedUpItems := st.req.backedUpItems ++ [itemKey obj]
    trace := st.trace ++ [BEvent.hook HookPhase.pre obj.name] }

/-- Embeds defaultItemBackupper.backupItem given the behaviour of the
recursive call used for additional items: inclusion filters, tombstone
check, dedup check and insert, pre hooks (a pre-hook error returns
immediately), pod detection and tracking, custom actions (on error: post
hooks still run and the aggregate is returned), name and namespace refresh
from the action-updated object, PV snapshot, pod volume backup, post hooks,
and serialization only when no error accumulated. -/
def backupItemCore (env : BackupEnv)
    (recurse : RunState → Item → String → Except String Unit × RunState)
    (st : RunState) (obj : Item) (groupResource : String) :
    Except String Unit × RunState :=
  if obj.ns ≠ "" ∧ ¬ env.nsInclude obj.ns then (Except.ok (), st)
  else if obj.ns = "" ∧ groupResource ≠ "namespaces" ∧
      st.req.includeClusterResources = some false then (Except.ok (), st)
  else if ¬ env.resInclude groupResource then (Except.ok (), st)
  else if obj.hasDeletionTimestamp then (Except.ok (), st)
  else if itemKey obj ∈ st.req.backedUpItems then (Except.ok (), st)
  else
    let st1 : RunState := dedupInsertState st obj
    match env.handleHooks HookPhase.pre groupResource obj with
    | some e => (Except.error e, st1)
    | none =>
      let ps := podStage env st1 obj groupResource
      match executeActionsLoop recurse env obj.ns obj.labels env.resolvedActions
          ps.2.2.2 obj groupResource with
      | (.error e, st3) =>
        let ph := postHookStage env st3 obj groupResource
        (Except.error (aggregateErrors (ps.2.2.1 ++ [e] ++ ph.1)), ph.2)
      | (.ok obj2, st3) =>
        let pv := pvStage env st3 obj2 groupResource
        let pvb := podVolumeStage env pv.2 ps.1 ps.2.1 groupResource
        let ph := postHookStage env pvb.2 obj2 groupResource
        let errsFinal := ps.2.2.1 ++ pv.1 ++ pvb.1 ++ ph.1
        if errsFinal.length ≠ 0 then
          (Except.error (aggregateErrors errsFinal), ph.2)
        else
          (Except.ok (), serializeItem ph.2 obj2 groupResource)

/-- The recursive-call behaviour at a given remaining depth: at depth zero
further recursion is modelled as an error (the Go code has no depth limit;
it terminates because the dedup set and the cluster are finite). -/
def backupItemRecurse (env : BackupEnv) :
    Nat → RunState → Item → String → Except String Unit × RunState
  | 0, st, _, _ => (Except.error "max recursion depth reached", st)
  | Nat.succ n, st, obj, groupResource =>
    backupItemCore env (fun st' o g => backupItemRecurse env n st' o g) st obj groupResource

/-- Embeds backupItem: run the core with recursion allowed up to the given
fuel. -/
def backupItem (env : BackupEnv) (fuel : Nat) (st : RunState) (obj : Item)
    (groupResource : String) : Except String Unit × RunState :=
  backupItemCore env (backupItemRecurse env fuel) st obj groupResource

/-- Growth relation between run states: the BackedUpItems list is only ever
extended (never shrunk) and the IncludeClusterResources switch is
untouched. -/
def itemsGrow (a b : RunState) : Prop :=
  (∃ t, b.req.backedUpItems = a.req.backedUpItems ++ t) ∧
  b.req.includeClusterResources = a.req.includeClusterResources

theorem itemsGrow_refl (a : RunState) : itemsGrow a a :=
  ⟨⟨[], by simp⟩, rfl⟩

theorem itemsGrow_trans {a b c : RunState} (h1 : itemsGrow a b) (h2 : itemsGrow b c) :
    itemsGrow a c := by
  obtain ⟨⟨t1, ht1⟩, e1⟩ := h1
  obtain ⟨⟨t2, ht2⟩, e2⟩ := h2
  exact ⟨⟨t1 ++ t2, by rw [ht2, ht1, List.append_assoc]⟩, e2.trans e1⟩

theorem takePVSnapshotCore_req_fields (env : SnapEnv) (req : Request)
    (pv : PersistentVolume) :
    (takePVSnapshotCore env req pv).2.1.backedUpItems = req.backedUpItems ∧
    (takePVSnapshotCore env req pv).2.1.includeClusterResources
      = req.includeClusterResources := by
  cases h1 : (snapshotLocationLoop env pv req.snapshotLocations).1 with
  | none => simp [takePVSnapshotCore, h1]
  | some w =>
    obtain ⟨bs, rest⟩ := w
    obtain ⟨l, v⟩ := rest
    cases h2 : bs.getVolumeInfo v ((pv.labels.lookup zoneLabel).getD "") with
    | error e => simp [takePVSnapshotCore, h1, h2]
    | ok info =>
      obtain ⟨vt, io⟩ := info
      cases h3 : bs.createSnapshot v ((pv.labels.lookup zoneLabel).getD "")
          [("velero.io/backup", req.backupName), ("velero.io/pv", pv.name)] with
      | error e => simp [takePVSnapshotCore, volumeSnapshot, h1, h2, h3]
      | ok sid => simp [takePVSnapshotCore, volumeSnapshot, h1, h2, h3]

theorem takePVSnapshot_req_fields (env : SnapEnv) (req : Request)
    (pv : PersistentVolume) :
    (takePVSnapshot env req pv).2.1.backedUpItems = req.backedUpItems ∧
    (takePVSnapshot env req pv).2.1.includeClusterResources
      = req.includeClusterResources := by
  unfold takePVSnapshot
  by_cases hsv : req.snapshotVolumes = some false
  · simp [hsv]
  · rw [if_neg hsv]
    cases hcr : pv.claimRef with
    | none => exact takePVSnapshotCore_req_fields env req pv
    | some claim =>
      by_cases ht : claim ∈ req.resticTracker
      · simp [ht]
      · simpa [ht] using takePVSnapshotCore_req_fields env req pv

theorem takePVSnapshotObj_req_fields (env : SnapEnv)
    (pvOf : Item → Except String PersistentVolume) (req : Request) (obj : Item) :
    (takePVSnapshotObj env pvOf req obj).2.1.backedUpItems = req.backedUpItems ∧
    (takePVSnapshotObj env pvOf req obj).2.1.includeClusterResources
      = req.includeClusterResources := by
  unfold takePVSnapshotObj
  by_cases hsv : req.snapshotVolumes = some false
  · simp [hsv]
  · rw [if_neg hsv]
    cases hc : pvOf obj with
    | error e => exact ⟨rfl, rfl⟩
    | ok pv => exact takePVSnapshot_req_fields env req pv

theorem podStage_itemsGrow (env : BackupEnv) (st : RunState) (obj : Item)
    (groupResource : String) :
    itemsGrow st (podStage env st obj groupResource).2.2.2 := by
  unfold podStage
  by_cases hg : groupResource = "pods"
  · rw [if_pos hg]
    cases env.podOf obj with
    | error e => exact itemsGrow_refl st
    | ok pod => exact ⟨⟨[], by simp⟩, rfl⟩
  · rw [if_neg hg]
    exact itemsGrow_refl st

theorem pvStage_itemsGrow (env : BackupEnv) (st : RunState) (obj2 : Item)
    (groupResource : String) :
    itemsGrow st (pvStage env st obj2 groupResource).2 := by
  unfold pvStage
  by_cases hg : groupResource = "persistentvolumes"
  · rw [if_pos hg]
    obtain ⟨hb, hi⟩ := takePVSnapshotObj_req_fields env.snap env.pvOf st.req obj2
    exact ⟨⟨[], by simp [hb]⟩, hi⟩
  · rw [if_neg hg]
    exact itemsGrow_refl st

theorem podVolumeStage_itemsGrow (env : BackupEnv) (st : RunState) (pod : Option Pod)
    (volumes : List String) (groupResource : String) :
    itemsGrow st (podVolumeStage env st pod volumes groupResource).2 := by
  unfold podVolumeStage
  by_cases hg : groupResource = "pods"
  · rw [if_pos hg]
    cases pod with
    | none => exact itemsGrow_refl st
    | some p => exact ⟨⟨[], by simp⟩, rfl⟩
  · rw [if_neg hg]
    exact itemsGrow_refl st

theorem postHookStage_itemsGrow (env : BackupEnv) (st : RunState) (obj : Item)
    (groupResource : String) :
    itemsGrow st (postHookStage env st obj groupResource).2 :=
  ⟨⟨[], by simp [postHookStage]⟩, rfl⟩

theorem serializeItem_itemsGrow (st : RunState) (obj2 : Item) (groupResource : String) :
    itemsGrow st (serializeItem st obj2 groupResource) :=
  ⟨⟨[], by simp [serializeItem]⟩, rfl⟩

theorem backupAdditionalLoop_itemsGrow
    (recurse : RunState → Item → String → Except String Unit × RunState)
    (hrec : ∀ st o g, itemsGrow st (recurse st o g).2)
    (env : BackupEnv) (refs : List AdditionalItemRef) (st : RunState) :
    itemsGrow st (backupAdditionalLoop recurse env refs st).2 := by
  induction refs generalizing st with
  | nil => exact itemsGrow_refl st
  | cons ref rest ih =>
    cases hga : env.getAdditionalItem ref with
    | error e =>
      simp only [backupAdditionalLoop, hga]
      exact itemsGrow_refl st
    | ok gi =>
      cases hr : recurse st gi.2 gi.1 with
      | mk res st' =>
        have h1 : itemsGrow st st' := by
          have := hrec st gi.2 gi.1
          rw [hr] at this
          exact this
        cases res with
        | error e =>
          simp only [backupAdditionalLoop, hga, hr]
          exact h1
        | ok u =>
          simp only [backupAdditionalLoop, hga, hr]
          exact itemsGrow_trans h1 (ih st')

theorem executeActionsLoop_itemsGrow
    (recurse : RunState → Item → String → Except String Unit × RunState)
    (hrec : ∀ st o g, itemsGrow st (recurse st o g).2)
    (env : BackupEnv) (origNs : String) (origLabels : List (String × String))
    (actions : List ResolvedAction) (st : RunState) (obj : Item)
    (groupResource : String) :
    itemsGrow st
      (executeActionsLoop recurse env origNs origLabels actions st obj groupResource).2 := by
  induction actions generalizing st obj with
  | nil => exact itemsGrow_refl st
  | cons action rest ih =>
    simp only [executeActionsLoop]
    by_cases hm1 : ¬ action.resourceMatch groupResource
    · rw [if_pos hm1]
      exact ih st obj
    rw [if_neg hm1]
    by_cases hm2 : origNs ≠ "" ∧ ¬ action.namespaceMatch origNs
    · rw [if_pos hm2]
      exact ih st obj
    rw [if_neg hm2]
    by_cases hm3 : origNs = "" ∧ ¬ action.namespaceIncludeEverything
    · rw [if_pos hm3]
      exact ih st obj
    rw [if_neg hm3]
    by_cases hm4 : ¬ action.labelSelectorMatches origLabels
    · rw [if_pos hm4]
      exact ih st obj
    rw [if_neg hm4]
    have hE : itemsGrow st
        { st with trace := st.trace ++ [BEvent.actionExecuted obj.name] } :=
      ⟨⟨[], by simp⟩, rfl⟩
    cases hae : action.execute obj with
    | error e =>
      simp only [hae]
      exact hE
    | ok res =>
      have hadd := backupAdditionalLoop_itemsGrow recurse hrec env res.2
        { st with trace := st.trace ++ [BEvent.actionExecuted obj.name] }
      cases hb : backupAdditionalLoop recurse env res.2
          { st with trace := st.trace ++ [BEvent.actionExecuted obj.name] } with
      | mk r st' =>
        rw [hb] at hadd
        have h2 : itemsGrow st st' := itemsGrow_trans hE hadd
        cases r with
        | error e =>
          simp only [hae, hb]
          exact h2
        | ok u =>
          simp only [hae, hb]
          exact itemsGrow_trans h2 (ih st' res.1)

theorem mem_of_itemsGrow {a b : RunState} (h : itemsGrow a b) {k : ItemKey}
    (hk : k ∈ a.req.backedUpItems) : k ∈ b.req.backedUpItems := by
  obtain ⟨⟨t, ht⟩, _⟩ := h
  rw [ht]
  exact List.mem_append_left _ hk

theorem backupItemCore_itemsGrow (env : BackupEnv)
    (recurse : RunState → Item → String → Except String Unit × RunState)
    (hrec : ∀ st' o g, itemsGrow st' (recurse st' o g).2)
    (st : RunState) (obj : Item) (groupResource : String) :
    itemsGrow st (backupItemCore env recurse st obj groupResource).2 ∧
    (¬ (obj.ns ≠ "" ∧ ¬ env.nsInclude obj.ns) →
      ¬ (obj.ns = "" ∧ groupResource ≠ "namespaces" ∧
          st.req.includeClusterResources = some false) →
      env.resInclude groupResource = true →
      obj.hasDeletionTimestamp = false →
      itemKey obj ∈ (backupItemCore env recurse st obj groupResource).2.req.backedUpItems) := by
  unfold backupItemCore
  by_cases c1 : obj.ns ≠ "" ∧ ¬ env.nsInclude obj.ns
  · rw [if_pos c1]
    exact ⟨itemsGrow_refl st, fun h1 _ _ _ => absurd c1 h1⟩
  rw [if_neg c1]
  by_cases c2 : obj.ns = "" ∧ groupResource ≠ "namespaces" ∧
      st.req.includeClusterResources = some false
  · rw [if_pos c2]
    exact ⟨itemsGrow_refl st, fun _ h2 _ _ => absurd c2 h2⟩
  rw [if_neg c2]
  by_cases c3 : env.resInclude groupResource = true
  · rw [if_neg (not_not_intro c3)]
    by_cases c4 : obj.hasDeletionTimestamp = true
    · rw [if_pos c4]
      exact ⟨itemsGrow_refl st, fun _ _ _ h4 => absurd c4 (by simp [h4])⟩
    rw [if_neg c4]
    by_cases c5 : itemKey obj ∈ st.req.backedUpItems
    · rw [if_pos c5]
      exact ⟨itemsGrow_refl st, fun _ _ _ _ => c5⟩
    rw [if_neg c5]
    have hst1 : itemsGrow st (dedupInsertState st obj) :=
      ⟨⟨[itemKey obj], rfl⟩, rfl⟩
    have hmem1 : itemKey obj ∈ (dedupInsertState st obj).req.backedUpItems :=
      List.mem_append_right _ (List.mem_singleton.mpr rfl)
    cases hpre : env.handleHooks HookPhase.pre groupResource obj with
    | some e =>
      simp only [hpre]
      exact ⟨hst1, fun _ _ _ _ => hmem1⟩
    | none =>
      simp only [hpre]
      have hps := podStage_itemsGrow env (dedupInsertState st obj) obj groupResource
      have hael := executeActionsLoop_itemsGrow recurse hrec env obj.ns obj.labels
        env.resolvedActions
        (podStage env (dedupInsertState st obj) obj groupResource).2.2.2
        obj groupResource
      cases hact : executeActionsLoop recurse env obj.ns obj.labels env.resolvedActions
          (podStage env (dedupInsertState st obj) obj groupResource).2.2.2
          obj groupResource with
      | mk actRes st3 =>
        rw [hact] at hael
        have hto3 : itemsGrow st st3 :=
          itemsGrow_trans hst1 (itemsGrow_trans hps hael)
        have hmem3 : itemKey obj ∈ st3.req.backedUpItems :=
          mem_of_itemsGrow (itemsGrow_trans hps hael) hmem1
        cases actRes with
        | error e =>
          simp only [hact]
          have hph := postHookStage_itemsGrow env st3 obj groupResource
          exact ⟨itemsGrow_trans hto3 hph,
            fun _ _ _ _ => mem_of_itemsGrow hph hmem3⟩
        | ok obj2 =>
          simp only [hact]
          have hpv := pvStage_itemsGrow env st3 obj2 groupResource
          have hpvb := podVolumeStage_itemsGrow env
            (pvStage env st3 obj2 groupResource).2
            (podStage env (dedupInsertState st obj) obj groupResource).1
            (podStage env (dedupInsertState st obj) obj groupResource).2.1
            groupResource
          have hph := postHookStage_itemsGrow env
            (podVolumeStage env (pvStage env st3 obj2 groupResource).2
              (podStage env (dedupInsertState st obj) obj groupResource).1
              (podStage env (dedupInsertState st obj) obj groupResource).2.1
              groupResource).2
            obj2 groupResource
          have hchain := itemsGrow_trans hpv (itemsGrow_trans hpvb hph)
          split
          · exact ⟨itemsGrow_trans hto3 hchain,
              fun _ _ _ _ => mem_of_itemsGrow hchain hmem3⟩
          · have hser := serializeItem_itemsGrow
              (postHookStage env
                (podVolumeStage env (pvStage env st3 obj2 groupResource).2
                  (podStage env (dedupInsertState st obj) obj groupResource).1
                  (podStage env (dedupInsertState st obj) obj groupResource).2.1
                  groupResource).2
                obj2 groupResource).2
              obj2 groupResource
            exact ⟨itemsGrow_trans hto3 (itemsGrow_trans hchain hser),
              fun _ _ _ _ => mem_of_itemsGrow (itemsGrow_trans hchain hser) hmem3⟩
  · rw [if_pos c3]
    exact ⟨itemsGrow_refl st, fun _ _ h3 _ => absurd h3 c3⟩

theorem backupItemRecurse_itemsGrow (env : BackupEnv) :
    ∀ (n : Nat) (st : RunState) (obj : Item) (gr : String),
      itemsGrow st (backupItemRecurse env n st obj gr).2
  | 0, st, _, _ => itemsGrow_refl st
  | Nat.succ n, st, obj, gr =>
    (backupItemCore_itemsGrow env _
      (fun st' o g => backupItemRecurse_itemsGrow env n st' o g) st obj gr).1

theorem backupItemCore_noop (env : BackupEnv)
    (recurse : RunState → Item → String → Except String Unit × RunState)
    (st : RunState) (obj : Item) (groupResource : String)
    (hkey : itemKey obj ∈ st.req.backedUpItems) :
    backupItemCore env recurse st obj groupResource = (Except.ok (), st) := by
  unfold backupItemCore
  split_ifs with h1 h2 h3 h4 <;> rfl

/-- C1: the BackedUpItems set only ever grows during backupItem (a key once
recorded is never removed within the run); a call on an item whose key is
already recorded returns nil with the state completely untouched (no write,
no hook, no provider call); and consequently a second application of
backupItem to the same item is always a no-op, so the archive is written at
most once per key per run. -/
theorem backupItem_dedup (env : BackupEnv) (fuel : Nat) (st : RunState) (obj : Item)
    (groupResource : String) :
    (∃ t, (backupItem env fuel st obj groupResource).2.req.backedUpItems
        = st.req.backedUpItems ++ t) ∧
    (itemKey obj ∈ st.req.backedUpItems →
      backupItem env fuel st obj groupResource = (Except.ok (), st)) ∧
    (∀ fuel2, backupItem env fuel2 (backupItem env fuel st obj groupResource).2
        obj groupResource
      = (Except.ok (), (backupItem env fuel st obj groupResource).2)) := by
  have hrec : ∀ st' o g, itemsGrow st' (backupItemRecurse env fuel st' o g).2 :=
    fun st' o g => backupItemRecurse_itemsGrow env fuel st' o g
  have hgrow := backupItemCore_itemsGrow env _ hrec st obj groupResource
  refine ⟨hgrow.1.1, ?_, ?_⟩
  · intro hkey
    exact backupItemCore_noop env _ st obj groupResource hkey
  · intro fuel2
    by_cases c1 : obj.ns ≠ "" ∧ ¬ env.nsInclude obj.ns
    · have e1 : backupItem env fuel st obj groupResource = (Except.ok (), st) := by
        unfold backupItem backupItemCore
        rw [if_pos c1]
      rw [e1]
      unfold backupItem backupItemCore
      rw [if_pos c1]
    by_cases c2 : obj.ns = "" ∧ groupResource ≠ "namespaces" ∧
        st.req.includeClusterResources = some false
    · have e1 : backupItem env fuel st obj groupResource = (Except.ok (), st) := by
        unfold backupItem backupItemCore
        rw [if_neg c1, if_pos c2]
      rw [e1]
      unfold backupItem backupItemCore
      rw [if_neg c1, if_pos c2]
    by_cases c3 : env.resInclude groupResource = true
    case neg =>
      have e1 : backupItem env fuel st obj groupResource = (Except.ok (), st) := by
        unfold backupItem backupItemCore
        rw [if_neg c1, if_neg c2, if_pos c3]
      rw [e1]
      unfold backupItem backupItemCore
      rw [if_neg c1, if_neg c2, if_pos c3]
    by_cases c4 : obj.hasDeletionTimestamp = true
    · have e1 : backupItem env fuel st obj groupResource = (Except.ok (), st) := by
        unfold backupItem backupItemCore
        rw [if_neg c1, if_neg c2, if_neg (not_not_intro c3), if_pos c4]
      rw [e1]
      unfold backupItem backupItemCore
      rw [if_neg c1, if_neg c2, if_neg (not_not_intro c3), if_pos c4]
    have hkeyF : itemKey obj
        ∈ (backupItem env fuel st obj groupResource).2.req.backedUpItems :=
      hgrow.2 c1 c2 c3 (by simpa using c4)
    exact backupItemCore_noop env _ _ obj groupResource hkeyF

/-- Growth relation on the event trace: events are only appended. -/
def traceGrow (a b : RunState) : Prop :=
  ∃ t, b.trace = a.trace ++ t

theorem traceGrow_refl (a : RunState) : traceGrow a a :=
  ⟨[], by simp⟩

theorem traceGrow_trans {a b c : RunState} (h1 : traceGrow a b) (h2 : traceGrow b c) :
    traceGrow a c := by
  obtain ⟨t1, ht1⟩ := h1
  obtain ⟨t2, ht2⟩ := h2
  exact ⟨t1 ++ t2, by rw [ht2, ht1, List.append_assoc]⟩

theorem podStage_trace_archive (env : BackupEnv) (st : RunState) (obj : Item)
    (groupResource : String) :
    (podStage env st obj groupResource).2.2.2.trace = st.trace ∧
    (podStage env st obj groupResource).2.2.2.archive = st.archive := by
  unfold podStage
  by_cases hg : groupResource = "pods"
  · rw [if_pos hg]
    cases env.podOf obj with
    | error e => exact ⟨rfl, rfl⟩
    | ok pod => exact ⟨rfl, rfl⟩
  · rw [if_neg hg]
    exact ⟨rfl, rfl⟩

theorem pvStage_trace_archive (env : BackupEnv) (st : RunState) (obj2 : Item)
    (groupResource : String) :
    traceGrow st (pvStage env st obj2 groupResource).2 ∧
    (pvStage env st obj2 groupResource).2.archive = st.archive := by
  unfold pvStage
  by_cases hg : groupResource = "persistentvolumes"
  · rw [if_pos hg]
    exact ⟨⟨_, rfl⟩, rfl⟩
  · rw [if_neg hg]
    exact ⟨traceGrow_refl st, rfl⟩

theorem podVolumeStage_trace_archive (env : BackupEnv) (st : RunState)
    (pod : Option Pod) (volumes : List String) (groupResource : String) :
    (podVolumeStage env st pod volumes groupResource).2.trace = st.trace ∧
    (podVolumeStage env st pod volumes groupResource).2.archive = st.archive := by
  unfold podVolumeStage
  by_cases hg : groupResource = "pods"
  · rw [if_pos hg]
    cases pod with
    | none => exact ⟨rfl, rfl⟩
    | some p => exact ⟨rfl, rfl⟩
  · rw [if_neg hg]
    exact ⟨rfl, rfl⟩

theorem postHookStage_trace (env : BackupEnv) (st : RunState) (obj : Item)
    (groupResource : String) :
    (postHookStage env st obj groupResource).2.trace
      = st.trace ++ [BEvent.hook HookPhase.post obj.name] ∧
    (postHookStage env st obj groupResource).2.archive = st.archive :=
  ⟨rfl, rfl⟩

theorem backupAdditionalLoop_traceGrow
    (recurse : RunState → Item → String → Except String Unit × RunState)
    (hrec : ∀ st o g, traceGrow st (recurse st o g).2)
    (env : BackupEnv) (refs : List AdditionalItemRef) (st : RunState) :
    traceGrow st (backupAdditionalLoop recurse env refs st).2 := by
  induction refs generalizing st with
  | nil => exact traceGrow_refl st
  | cons ref rest ih =>
    cases hga : env.getAdditionalItem ref with
    | error e =>
      simp only [backupAdditionalLoop, hga]
      exact traceGrow_refl st
    | ok gi =>
      cases hr : recurse st gi.2 gi.1 with
      | mk res st' =>
        have h1 : traceGrow st st' := by
          have := hrec st gi.2 gi.1
          rw [hr] at this
          exact this
        cases res with
        | error e =>
          simp only [backupAdditionalLoop, hga, hr]
          exact h1
        | ok u =>
          simp only [backupAdditionalLoop, hga, hr]
          exact traceGrow_trans h1 (ih st')

theorem executeActionsLoop_traceGrow
    (recurse : RunState → Item → String → Except String Unit × RunState)
    (hrec : ∀ st o g, traceGrow st (recurse st o g).2)
    (env : BackupEnv) (origNs : String) (origLabels : List (String × String))
    (actions : List ResolvedAction) (st : RunState) (obj : Item)
    (groupResource : String) :
    traceGrow st
      (executeActionsLoop recurse env origNs origLabels actions st obj groupResource).2 := by
  induction actions generalizing st obj with
  | nil => exact traceGrow_refl st
  | cons action rest ih =>
    simp only [executeActionsLoop]
    by_cases hm1 : ¬ action.resourceMatch groupResource
    · rw [if_pos hm1]
      exact ih st obj
    rw [if_neg hm1]
    by_cases hm2 : origNs ≠ "" ∧ ¬ action.namespaceMatch origNs
    · rw [if_pos hm2]
      exact ih st obj
    rw [if_neg hm2]
    by_cases hm3 : origNs = "" ∧ ¬ action.namespaceIncludeEverything
    · rw [if_pos hm3]
      exact ih st obj
    rw [if_neg hm3]
    by_cases hm4 : ¬ action.labelSelectorMatches origLabels
    · rw [if_pos hm4]
      exact ih st obj
    rw [if_neg hm4]
    have hE : traceGrow st
        { st with trace := st.trace ++ [BEvent.actionExecuted obj.name] } :=
      ⟨_, rfl⟩
    cases hae : action.execute obj with
    | error e =>
      simp only [hae]
      exact hE
    | ok res =>
      have hadd := backupAdditionalLoop_traceGrow recurse hrec env res.2
        { st with trace := st.trace ++ [BEvent.actionExecuted obj.name] }
      cases hb : backupAdditionalLoop recurse env res.2
          { st with trace := st.trace ++ [BEvent.actionExecuted obj.name] } with
      | mk r st' =>
        rw [hb] at hadd
        have h2 : traceGrow st st' := traceGrow_trans hE hadd
        cases r with
        | error e =>
          simp only [hae, hb]
          exact h2
        | ok u =>
          simp only [hae, hb]
          exact traceGrow_trans h2 (ih st' res.1)

theorem backupItemCore_traceGrow (env : BackupEnv)
    (recurse : RunState → Item → String → Except String Unit × RunState)
    (hrec : ∀ st' o g, traceGrow st' (recurse st' o g).2)
    (st : RunState) (obj : Item) (groupResource : String) :
    traceGrow st (backupItemCore env recurse st obj groupResource).2 := by
  unfold backupItemCore
  split_ifs with c1 c2 c3 c4 c5
  any_goals exact traceGrow_refl st
  have hst1 : traceGrow st (dedupInsertState st obj) := ⟨_, rfl⟩
  cases hpre : env.handleHooks HookPhase.pre groupResource obj with
  | some e =>
    simp only [hpre]
    exact hst1
  | none =>
    simp only [hpre]
    have hps0 := podStage_trace_archive env (dedupInsertState st obj) obj groupResource
    have hps : traceGrow st (podStage env (dedupInsertState st obj) obj groupResource).2.2.2 :=
      traceGrow_trans hst1 ⟨[], by simp [hps0.1]⟩
    have hael := executeActionsLoop_traceGrow recurse hrec env obj.ns obj.labels
      env.resolvedActions
      (podStage env (dedupInsertState st obj) obj groupResource).2.2.2
      obj groupResource
    cases hact : executeActionsLoop recurse env obj.ns obj.labels env.resolvedActions
        (podStage env (dedupInsertState st obj) obj groupResource).2.2.2
        obj groupResource with
    | mk actRes st3 =>
      rw [hact] at hael
      have hto3 : traceGrow st st3 := traceGrow_trans hps hael
      cases actRes with
      | error e =>
        simp only [hact]
        exact traceGrow_trans hto3
          ⟨[BEvent.hook HookPhase.post obj.name],
            (postHookStage_trace env st3 obj groupResource).1⟩
      | ok obj2 =>
        simp only [hact]
        have hpv := (pvStage_trace_archive env st3 obj2 groupResource).1
        have hpvb : traceGrow (pvStage env st3 obj2 groupResource).2
            (podVolumeStage env (pvStage env st3 obj2 groupResource).2
              (podStage env (dedupInsertState st obj) obj groupResource).1
              (podStage env (dedupInsertState st obj) obj groupResource).2.1
              groupResource).2 :=
          ⟨[], by
            simp [(podVolumeStage_trace_archive env (pvStage env st3 obj2 groupResource).2
              (podStage env (dedupInsertState st obj) obj groupResource).1
              (podStage env (dedupInsertState st obj) obj groupResource).2.1
              groupResource).1]⟩
        have hph : traceGrow
            (podVolumeStage env (pvStage env st3 obj2 groupResource).2
              (podStage env (dedupInsertState st obj) obj groupResource).1
              (podStage env (dedupInsertState st obj) obj groupResource).2.1
              groupResource).2
            (postHookStage env
              (podVolumeStage env (pvStage env st3 obj2 groupResource).2
                (podStage env (dedupInsertState st obj) obj groupResource).1
                (podStage env (dedupInsertState st obj) obj groupResource).2.1
                groupResource).2
              obj2 groupResource).2 :=
          ⟨[BEvent.hook HookPhase.post obj2.name], (postHookStage_trace env _ obj2 groupResource).1⟩
        have hchain := traceGrow_trans hto3 (traceGrow_trans hpv (traceGrow_trans hpvb hph))
        split
        · exact hchain
        · exact traceGrow_trans hchain ⟨_, rfl⟩

theorem backupItemRecurse_traceGrow (env : BackupEnv) :
    ∀ (n : Nat) (st : RunState) (obj : Item) (gr : String),
      traceGrow st (backupItemRecurse env n st obj gr).2
  | 0, st, _, _ => traceGrow_refl st
  | Nat.succ n, st, obj, gr =>
    backupItemCore_traceGrow env _
      (fun st' o g => backupItemRecurse_traceGrow env n st' o g) st obj gr

/-- C8 (amended): for every item that passes the filters and the dedup
check and whose pre hooks succeed, the post hooks run after all action and
volume processing in both outcomes of the action step, and any accumulated
error makes backupItem return the aggregate with no archive entry written
for this item (the archive stays exactly as the action step left it: only
additional items pulled in by actions may have been written). -/
theorem backupItem_post_hooks (env : BackupEnv) (fuel : Nat) (st : RunState)
    (obj : Item) (groupResource : String)
    (h1 : ¬ (obj.ns ≠ "" ∧ ¬ env.nsInclude obj.ns))
    (h2 : ¬ (obj.ns = "" ∧ groupResource ≠ "namespaces" ∧
        st.req.includeClusterResources = some false))
    (h3 : env.resInclude groupResource = true)
    (h4 : obj.hasDeletionTimestamp = false)
    (h5 : itemKey obj ∉ st.req.backedUpItems)
    (hpre : env.handleHooks HookPhase.pre groupResource obj = none) :
    (∀ e st3,
      executeActionsLoop (backupItemRecurse env fuel) env obj.ns obj.labels
          env.resolvedActions
          (podStage env (dedupInsertState st obj) obj groupResource).2.2.2
          obj groupResource
        = (Except.error e, st3) →
      backupItem env fuel st obj groupResource
        = (Except.error (aggregateErrors
            ((podStage env (dedupInsertState st obj) obj groupResource).2.2.1
              ++ [e] ++ (postHookStage env st3 obj groupResource).1)),
          (postHookStage env st3 obj groupResource).2) ∧
      (postHookStage env st3 obj groupResource).2.trace
        = st3.trace ++ [BEvent.hook HookPhase.post obj.name] ∧
      (postHookStage env st3 obj groupResource).2.archive = st3.archive) ∧
    (∀ obj2 st3,
      executeActionsLoop (backupItemRecurse env fuel) env obj.ns obj.labels
          env.resolvedActions
          (podStage env (dedupInsertState st obj) obj groupResource).2.2.2
          obj groupResource
        = (Except.ok obj2, st3) →
      (postHookStage env
          (podVolumeStage env (pvStage env st3 obj2 groupResource).2
            (podStage env (dedupInsertState st obj) obj groupResource).1
            (podStage env (dedupInsertState st obj) obj groupResource).2.1
            groupResource).2
          obj2 groupResource).2.trace
        = (podVolumeStage env (pvStage env st3 obj2 groupResource).2
            (podStage env (dedupInsertState st obj) obj groupResource).1
            (podStage env (dedupInsertState st obj) obj groupResource).2.1
            groupResource).2.trace ++ [BEvent.hook HookPhase.post obj2.name] ∧
      (podVolumeStage env (pvStage env st3 obj2 groupResource).2
          (podStage env (dedupInsertState st obj) obj groupResource).1
          (podStage env (dedupInsertState st obj) obj groupResource).2.1
          groupResource).2.archive = st3.archive ∧
      (((podStage env (dedupInsertState st obj) obj groupResource).2.2.1
          ++ (pvStage env st3 obj2 groupResource).1
          ++ (podVolumeStage env (pvStage env st3 obj2 groupResource).2
              (podStage env (dedupInsertState st obj) obj groupResource).1
              (podStage env (dedupInsertState st obj) obj groupResource).2.1
              groupResource).1
          ++ (postHookStage env
              (podVolumeStage env (pvStage env st3 obj2 groupResource).2
                (podStage env (dedupInsertState st obj) obj groupResource).1
                (podStage env (dedupInsertState st obj) obj groupResource).2.1
                groupResource).2
              obj2 groupResource).1).length ≠ 0 →
        backupItem env fuel st obj groupResource
          = (Except.error (aggregateErrors
              ((podStage env (dedupInsertState st obj) obj groupResource).2.2.1
                ++ (pvStage env st3 obj2 groupResource).1
                ++ (podVolumeStage env (pvStage env st3 obj2 groupResource).2
                    (podStage env (dedupInsertState st obj) obj groupResource).1
                    (podStage env (dedupInsertState st obj) obj groupResource).2.1
                    groupResource).1
                ++ (postHookStage env
                    (podVolumeStage env (pvStage env st3 obj2 groupResource).2
                      (podStage env (dedupInsertState st obj) obj groupResource).1
                      (podStage env (dedupInsertState st obj) obj groupResource).2.1
                      groupResource).2
                    obj2 groupResource).1)),
            (postHookStage env
              (podVolumeStage env (pvStage env st3 obj2 groupResource).2
                (podStage env (dedupInsertState st obj) obj groupResource).1
                (podStage env (dedupInsertState st obj) obj groupResource).2.1
                groupResource).2
              obj2 groupResource).2)) ∧
      (((podStage env (dedupInsertState st obj) obj groupResource).2.2.1
          ++ (pvStage env st3 obj2 groupResource).1
          ++ (podVolumeStage env (pvStage env st3 obj2 groupResource).2
              (podStage env (dedupInsertState st obj) obj groupResource).1
              (podStage env (dedupInsertState st obj) obj groupResource).2.1
              groupResource).1
          ++ (postHookStage env
              (podVolumeStage env (pvStage env st3 obj2 groupResource).2
                (podStage env (dedupInsertState st obj) obj groupResource).1
                (podStage env (dedupInsertState st obj) obj groupResource).2.1
                groupResource).2
              obj2 groupResource).1).length = 0 →
        backupItem env fuel st obj groupResource
          = (Except.ok (), serializeItem
              (postHookStage env
                (podVolumeStage env (pvStage env st3 obj2 groupResource).2
                  (podStage env (dedupInsertState st obj) obj groupResource).1
                  (podStage env (dedupInsertState st obj) obj groupResource).2.1
                  groupResource).2
                obj2 groupResource).2
              obj2 groupResource))) := by
  have hdel : ¬ (obj.hasDeletionTimestamp = true) := by simp [h4]
  unfold backupItem backupItemCore
  rw [if_neg h1, if_neg h2, if_neg (not_not_intro h3), if_neg hdel, if_neg h5]
  simp only [hpre]
  constructor
  · intro e st3 hact
    simp only [hact]
    exact ⟨trivial, (postHookStage_trace env st3 obj groupResource).1,
      (postHookStage_trace env st3 obj groupResource).2⟩
  · intro obj2 st3 hact
    simp only [hact]
    refine ⟨(postHookStage_trace env _ obj2 groupResource).1, ?_, ?_, ?_⟩
    · rw [(podVolumeStage_trace_archive env _ _ _ groupResource).2,
        (pvStage_trace_archive env st3 obj2 groupResource).2]
    · intro hlen
      rw [if_pos hlen]
    · intro hlen0
      rw [if_neg (fun hne => hne hlen0)]

/-- Empty request for a run named bk. -/
def reqEmpty : Request :=
  { backupName := "bk", backupUID := "uid", includeClusterResources := none
    snapshotVolumes := none, snapshotLocations := [], backedUpItems := []
    volumeSnapshots := [], podVolumeBackups := [], resticTracker := [] }

/-- Fresh run state. -/
def stEmpty : RunState :=
  { req := reqEmpty, archive := [], trace := [] }

/-- All-permissive backup environment: everything included, hooks succeed,
no actions, no restic backupper, no snapshot providers. -/
def envTrivial : BackupEnv :=
  { nsInclude := fun _ => true
    resInclude := fun _ => true
    handleHooks := fun _ _ _ => none
    resolvedActions := []
    podOf := fun _ => Except.error "not a pod"
    pvOf := fun _ => Except.error "not a pv"
    getAdditionalItem := fun _ => Except.error "unknown item"
    resticBackupper := none
    snap := envNoProvider }

/-- A namespaced deployment item. -/
def itemDep : Item :=
  { resource := "apps/v1/Deployment", ns := "ns1", name := "dep1"
    hasDeletionTimestamp := false, labels := [], payload := "spec-a" }

theorem backupItem_dedup_witness :
    itemKey itemDep ∈ (backupItem envTrivial 2 stEmpty itemDep "deployments").2.req.backedUpItems ∧
    backupItem envTrivial 2 (backupItem envTrivial 2 stEmpty itemDep "deployments").2
        itemDep "deployments"
      = (Except.ok (), (backupItem envTrivial 2 stEmpty itemDep "deployments").2) :=
  ⟨by decide,
    (backupItem_dedup envTrivial 2 (backupItem envTrivial 2 stEmpty itemDep "deployments").2
      itemDep "deployments").2.1 (by decide)⟩

/-- Environment whose pre hooks always fail and whose post hooks succeed. -/
def envPreFail : BackupEnv :=
  { envTrivial with handleHooks := fun ph _ _ =>
      if ph = HookPhase.pre then some "pre hook failed" else none }

/-- True exactly on post-hook events. -/
def BEvent.isPostHookEvent : BEvent → Bool
  | .hook HookPhase.post _ => true
  | _ => false

/-- C8 counterexample: an item that passes the dedup check (its key is
recorded) but whose pre hook fails makes backupItem return the pre-hook
error immediately, and NO post hook is executed, refuting the claim that
post hooks run regardless of any intermediate failure including a pre-hook
failure. -/
theorem backupItem_prehook_skips_posthook :
    (backupItem envPreFail 1 stEmpty itemDep "deployments").1
      = Except.error "pre hook failed" ∧
    itemKey itemDep
      ∈ (backupItem envPreFail 1 stEmpty itemDep "deployments").2.req.backedUpItems ∧
    ((backupItem envPreFail 1 stEmpty itemDep "deployments").2.trace.any
      BEvent.isPostHookEvent) = false :=
  ⟨rfl, by decide, by decide⟩

theorem backupItem_post_hooks_witness :
    itemKey itemDep ∉ stEmpty.req.backedUpItems ∧
    envTrivial.handleHooks HookPhase.pre "deployments" itemDep = none ∧
    backupItem envTrivial 1 stEmpty itemDep "deployments"
      = (Except.ok (), serializeItem
          (postHookStage envTrivial
            (podVolumeStage envTrivial
              (pvStage envTrivial
                (podStage envTrivial (dedupInsertState stEmpty itemDep) itemDep
                  "deployments").2.2.2
                itemDep "deployments").2
              (podStage envTrivial (dedupInsertState stEmpty itemDep) itemDep
                "deployments").1
              (podStage envTrivial (dedupInsertState stEmpty itemDep) itemDep
                "deployments").2.1
              "deployments").2
            itemDep "deployments").2
          itemDep "deployments") :=
  ⟨by decide, rfl,
    ((backupItem_post_hooks envTrivial 1 stEmpty itemDep "deployments"
      (by decide) (by decide) (by decide) rfl (by decide) rfl).2 itemDep
      (podStage envTrivial (dedupInsertState stEmpty itemDep) itemDep
        "deployments").2.2.2 rfl).2.2.2 (by decide)⟩

/-- C10: the dedup key is computed from the item name and namespace BEFORE
custom actions run, while the archive path is built from the name and
namespace of the action-updated object: for an item processed through one
matching action with no additional items and no other errors, backupItem
succeeds, records the key under the original (resource, namespace, name)
and writes the archive entry under the updated namespace and name. -/
theorem backupItem_key_original_path_updated (env : BackupEnv) (fuel : Nat)
    (st : RunState) (obj : Item) (groupResource : String)
    (h1 : ¬ (obj.ns ≠ "" ∧ ¬ env.nsInclude obj.ns))
    (h2 : ¬ (obj.ns = "" ∧ groupResource ≠ "namespaces" ∧
        st.req.includeClusterResources = some false))
    (h3 : env.resInclude groupResource = true)
    (h4 : obj.hasDeletionTimestamp = false)
    (h5 : itemKey obj ∉ st.req.backedUpItems)
    (hpre : env.handleHooks HookPhase.pre groupResource obj = none)
    (hgr1 : groupResource ≠ "pods") (hgr2 : groupResource ≠ "persistentvolumes")
    (action : ResolvedAction) (obj2 : Item)
    (hacts : env.resolvedActions = [action])
    (ham1 : action.resourceMatch groupResource = true)
    (ham2 : ¬ (obj.ns ≠ "" ∧ ¬ action.namespaceMatch obj.ns))
    (ham3 : ¬ (obj.ns = "" ∧ ¬ action.namespaceIncludeEverything))
    (ham4 : action.labelSelectorMatches obj.labels = true)
    (hexec : action.execute obj = Except.ok (obj2, []))
    (hpost : env.handleHooks HookPhase.post groupResource obj2 = none) :
    (backupItem env fuel st obj groupResource).1 = Except.ok () ∧
    (backupItem env fuel st obj groupResource).2.req.backedUpItems
      = st.req.backedUpItems
        ++ [{ resource := obj.resource, ns := obj.ns, name := obj.name }] ∧
    (backupItem env fuel st obj groupResource).2.archive
      = st.archive ++ [(itemFilePath groupResource obj2.ns obj2.name, obj2)] := by
  have hdel : ¬ (obj.hasDeletionTimestamp = true) := by simp [h4]
  have hps : podStage env (dedupInsertState st obj) obj groupResource
      = (none, [], [], dedupInsertState st obj) := by
    unfold podStage
    rw [if_neg hgr1]
  have hact : executeActionsLoop (backupItemRecurse env fuel) env obj.ns obj.labels
      [action] (dedupInsertState st obj) obj groupResource
      = (Except.ok obj2,
        { dedupInsertState st obj with trace :=
            (dedupInsertState st obj).trace ++ [BEvent.actionExecuted obj.name] }) := by
    unfold executeActionsLoop
    rw [if_neg (not_not_intro ham1), if_neg ham2, if_neg ham3,
      if_neg (not_not_intro ham4)]
    simp only [hexec, backupAdditionalLoop]
    rfl
  have hpv : pvStage env
      { dedupInsertState st obj with trace :=
          (dedupInsertState st obj).trace ++ [BEvent.actionExecuted obj.name] }
      obj2 groupResource
      = ([], { dedupInsertState st obj with trace :=
          (dedupInsertState st obj).trace ++ [BEvent.actionExecuted obj.name] }) := by
    unfold pvStage
    rw [if_neg hgr2]
  have hpvb : podVolumeStage env
      { dedupInsertState st obj with trace :=
          (dedupInsertState st obj).trace ++ [BEvent.actionExecuted obj.name] }
      none [] groupResource
      = ([], { dedupInsertState st obj with trace :=
          (dedupInsertState st obj).trace ++ [BEvent.actionExecuted obj.name] }) := by
    unfold podVolumeStage
    rw [if_neg hgr1]
  unfold backupItem backupItemCore
  rw [if_neg h1, if_neg h2, if_neg (not_not_intro h3), if_neg hdel, if_neg h5]
  simp only [hpre, hacts, hps, hact, hpv, hpvb, postHookStage, hpost]
  simp [serializeItem, dedupInsertState, itemKey]

/-- Action that moves every item to namespace ns2 under the name renamed. -/
def renameAction : ResolvedAction :=
  { resourceMatch := fun _ => true
    namespaceMatch := fun _ => true
    namespaceIncludeEverything := true
    labelSelectorMatches := fun _ => true
    execute := fun i => Except.ok ({ i with ns := "ns2", name := "renamed" }, []) }

/-- Environment with the renaming action resolved. -/
def envRename : BackupEnv :=
  { envTrivial with resolvedActions := [renameAction] }

theorem backupItem_key_original_path_updated_witness :
    itemKey itemDep ∉ stEmpty.req.backedUpItems ∧
    renameAction.execute itemDep
      = Except.ok ({ itemDep with ns := "ns2", name := "renamed" }, []) ∧
    ((backupItem envRename 1 stEmpty itemDep "deployments").1 = Except.ok () ∧
      (backupItem envRename 1 stEmpty itemDep "deployments").2.req.backedUpItems
        = stEmpty.req.backedUpItems
          ++ [{ resource := itemDep.resource, ns := itemDep.ns, name := itemDep.name }] ∧
      (backupItem envRename 1 stEmpty itemDep "deployments").2.archive
        = stEmpty.archive ++ [(itemFilePath "deployments" "ns2" "renamed",
            { itemDep with ns := "ns2", name := "renamed" })]) :=
  ⟨by decide, rfl,
    backupItem_key_original_path_updated envRename 1 stEmpty itemDep "deployments"
      (by decide) (by decide) (by decide) rfl (by decide) rfl
      (by decide) (by decide) renameAction ({ itemDep with ns := "ns2", name := "renamed" })
      rfl rfl (by decide) (by decide) rfl rfl rfl⟩

/-- A pod item named pod1. -/
def podItem1 : Item :=
  { resource := "v1/Pod", ns := "ns1", name := "pod1"
    hasDeletionTimestamp := false, labels := [], payload := "pod-a" }

/-- A pod item named pod2. -/
def podItem2 : Item :=
  { resource := "v1/Pod", ns := "ns1", name := "pod2"
    hasDeletionTimestamp := false, labels := [], payload := "pod-b" }

/-- Environment where pods convert successfully with one restic volume each
and the restic backupper returns one PodVolumeBackup reference per pod. -/
def envPods : BackupEnv :=
  { envTrivial with
    podOf := fun i => Except.ok
      { ns := i.ns, name := i.name, volumesToBackup := ["vol1"], pvcOfVolume := [] }
    resticBackupper := some (fun p _ => ([p.name ++ "-pvb"], [])) }

/-- C9 evaluation: backing up pod1 records its PodVolumeBackup reference,
but backing up pod2 afterwards ASSIGNS (not appends) the request list, so
the reference recorded for pod1 is lost: the accumulated list contains only
the most recently processed pod. -/
theorem podVolumeBackups_overwritten :
    (backupItem envPods 1 stEmpty podItem1 "pods").2.req.podVolumeBackups
      = ["pod1-pvb"] ∧
    (backupItem envPods 1 (backupItem envPods 1 stEmpty podItem1 "pods").2
        podItem2 "pods").2.req.podVolumeBackups = ["pod2-pvb"] ∧
    "pod1-pvb" ∉ (backupItem envPods 1 (backupItem envPods 1 stEmpty podItem1 "pods").2
        podItem2 "pods").2.req.podVolumeBackups := by
  decide

end Velero
